import Mathlib

/-!
Verification of the arena-framework raycasting engine.

A shallow embedding of the C++ sources under `src/arena-framework/src`:
the 2D math header `framework/math/Vec2.h`, the grid map and door logic
(`game/world/GridMap.cpp`, `game/world/Door.cpp`), movement collision and
interaction raycasts (`game/world/Collision.cpp`), the DDA wall raycaster
(`framework/renderer/Raycaster.cpp`), the camera
(`framework/renderer/RaycastCamera.cpp`) and the billboard sprite projector
(`framework/renderer/SpriteRenderer.cpp`).

Machine floats are modeled as exact rationals (`ℚ`) for the grid/DDA code,
whose operations are field operations and floors, and as reals (`ℝ`) for the
sprite projector, whose operations involve `sqrt`, `sin`, `cos`, `arcsin`
and `arccos`.  C-style flat arrays indexed `y*width+x` are modeled as
indexing functions; the fixed-capacity door array with its valid prefix
`m_doors[0..m_doorCount)` is modeled as a list of length at most
`MAX_DOORS`.  Fallible operations return `Option`.
-/

namespace Arena

/-- Two-dimensional vector, from framework/math/Vec2.h (fields x, y). -/
structure Vec2 (α : Type) where
  x : α
  y : α
deriving DecidableEq, Repr

/-- Tile record from GridMap.h: wall/floor/ceiling type ids and a solid flag.
The `uint8_t` ids are modeled as integers. -/
structure Tile where
  wallType : ℤ
  floorType : ℤ
  ceilingType : ℤ
  solid : Bool
deriving DecidableEq, Repr

/-- Default-constructed tile: `Tile() : wallType(0), floorType(0),
ceilingType(0), solid(false)`. -/
def Tile.init : Tile := ⟨0, 0, 0, false⟩

/-- Door state enum from Door.h. -/
inductive DoorState where
  | Closed
  | Opening
  | Open
  | Closing
  | Locked
deriving DecidableEq, Repr

/-- Door record from Door.h: tile-centered world position, state,
open-progress fraction, locked flag and key id. -/
structure Door where
  posX : ℚ
  posY : ℚ
  state : DoorState
  openProgress : ℚ
  locked : Bool
  lockId : ℤ
deriving DecidableEq, Repr

/-- Default-constructed door (Door.h constructor). -/
def Door.init : Door := ⟨0, 0, DoorState.Closed, 0, false, 0⟩

/-- DoorSystem::IsOpen: a door is open exactly in state Open. -/
def DoorSystem.IsOpen (d : Door) : Bool := d.state = DoorState.Open

/-- DoorSystem::IsClosed. -/
def DoorSystem.IsClosed (d : Door) : Bool := d.state = DoorState.Closed

/-- DoorSystem::Update (Door.cpp): in state Opening, progress advances by
`openSpeed * deltaTime` with `openSpeed = 2` and is clamped to 1 (entering
Open); in state Closing it decreases likewise and is clamped to 0
(entering Closed); other states are unchanged. -/
def DoorSystem.Update (d : Door) (deltaTime : ℚ) : Door :=
  match d.state with
  | DoorState.Opening =>
      let p := d.openProgress + 2 * deltaTime
      if 1 ≤ p then { d with openProgress := 1, state := DoorState.Open }
      else { d with openProgress := p }
  | DoorState.Closing =>
      let p := d.openProgress - 2 * deltaTime
      if p ≤ 0 then { d with openProgress := 0, state := DoorState.Closed }
      else { d with openProgress := p }
  | _ => d

/-- DoorSystem::TryUnlock (Door.cpp): an unlocked door reports success; a
locked door unlocks when the key matches or no key is required. -/
def DoorSystem.TryUnlock (d : Door) (keyId : ℤ) : Bool × Door :=
  if d.locked = false then (true, d)
  else if keyId = d.lockId ∨ d.lockId = 0 then (true, { d with locked := false })
  else (false, d)

/-- DoorSystem::TryOpen (Door.cpp): a locked door is first unlocked (and on
success starts Opening); an unlocked Closed door starts Opening; anything
else fails. -/
def DoorSystem.TryOpen (d : Door) (keyId : ℤ) : Bool × Door :=
  if d.locked then
    let r := DoorSystem.TryUnlock d keyId
    if r.1 then (true, { r.2 with state := DoorState.Opening })
    else (false, r.2)
  else if d.state = DoorState.Closed then (true, { d with state := DoorState.Opening })
  else (false, d)

/-- DoorSystem::Close (Door.cpp): an Open door starts Closing; anything else
is unchanged. -/
def DoorSystem.Close (d : Door) : Door :=
  if d.state = DoorState.Open then { d with state := DoorState.Closing } else d

/-- Fixed door capacity `MAX_DOORS` from GridMap.h. -/
def MAX_DOORS : ℕ := 128

/-- Grid map state (GridMap.h): dimensions, the tile grid (the flat
`m_tiles[y*width+x]` array modeled as an indexing function), and the valid
door prefix `m_doors[0..m_doorCount)` (so `m_doorCount = doors.length`). -/
structure GridMap where
  width : ℤ
  height : ℤ
  tiles : ℤ → ℤ → Tile
  doors : List Door

/-- GridMap::IsValid: pure bounds check. -/
def GridMap.IsValid (m : GridMap) (x y : ℤ) : Bool :=
  decide (0 ≤ x) && decide (x < m.width) && decide (0 ≤ y) && decide (y < m.height)

/-- GridMap::GetDoorAt: nullptr out of bounds, else a linear scan of the
door list for a matching truncated coordinate (`(int)floorf(position)`). -/
def GridMap.GetDoorAt (m : GridMap) (x y : ℤ) : Option Door :=
  if m.IsValid x y then
    m.doors.find? (fun d => decide (⌊d.posX⌋ = x) && decide (⌊d.posY⌋ = y))
  else none

/-- GridMap::IsSolid: out of bounds is solid; an Open door at the cell makes
it non-solid; otherwise the tile's solid flag. -/
def GridMap.IsSolid (m : GridMap) (x y : ℤ) : Bool :=
  if m.IsValid x y = false then true
  else
    match m.GetDoorAt x y with
    | some d => if DoorSystem.IsOpen d then false else (m.tiles x y).solid
    | none => (m.tiles x y).solid

/-- GridMap::GetTile (const): a shared default tile out of bounds, else the
indexed tile. -/
def GridMap.GetTile (m : GridMap) (x y : ℤ) : Tile :=
  if m.IsValid x y then m.tiles x y else Tile.init

/-- GridMap::Destroy: frees both arrays and zeroes dimensions and door
count. -/
def GridMap.Destroy (_m : GridMap) : GridMap :=
  { width := 0, height := 0, tiles := fun _ _ => Tile.init, doors := [] }

/-- GridMap::Create (GridMap.cpp lines 25-60).  Non-positive dimensions fail
immediately (before `Destroy()` is called, so the previous state survives).
Otherwise the old state is destroyed and the two allocations are attempted;
the two `Bool` oracle arguments stand for the success of `new Tile[w*h]` and
`new Door[MAX_DOORS]`.  On either allocation failure the map is left with
zero dimensions, no tiles and no doors; on success the map holds a
zero-initialized grid (`Clear()` memsets the tiles) and an empty door
list. -/
def GridMap.Create (m : GridMap) (width height : ℤ)
    (allocTilesOk allocDoorsOk : Bool) : Bool × GridMap :=
  if width ≤ 0 ∨ height ≤ 0 then (false, m)
  else
    let m1 := m.Destroy
    if allocTilesOk = false then (false, { m1 with width := 0, height := 0 })
    else if allocDoorsOk = false then (false, { m1 with width := 0, height := 0 })
    else (true, { width := width, height := height,
                  tiles := fun _ _ => Tile.init, doors := [] })

/-- GridMap::CreateDoorAt (GridMap.cpp lines 262-288): nullptr out of
bounds; nullptr when the door count has reached MAX_DOORS (this check
precedes the existing-door lookup); the existing door if one occupies the
cell; otherwise a fresh Closed door at the tile center is appended and
returned. -/
def GridMap.CreateDoorAt (m : GridMap) (x y : ℤ) : Option Door × GridMap :=
  if m.IsValid x y = false then (none, m)
  else if MAX_DOORS ≤ m.doors.length then (none, m)
  else
    match m.GetDoorAt x y with
    | some d => (some d, m)
    | none =>
        let d : Door := ⟨(x : ℚ) + 1/2, (y : ℚ) + 1/2, DoorState.Closed, 0, false, 0⟩
        (some d, { m with doors := m.doors ++ [d] })

/-- Collision::IsPointSolid (Collision.cpp): solidity of the tile containing
a world point, with `(int)floorf` truncation. -/
def Collision.IsPointSolid (m : GridMap) (x y : ℚ) : Bool :=
  m.IsSolid ⌊x⌋ ⌊y⌋

/-- Collision::IsCircleColliding (Collision.cpp lines 17-34): the circle's
center and its four corner offsets `(±radius, ±radius)` are the five sample
points tested against solid cells. -/
def Collision.IsCircleColliding (m : GridMap) (x y radius : ℚ) : Bool :=
  Collision.IsPointSolid m x y ||
  Collision.IsPointSolid m (x - radius) (y - radius) ||
  Collision.IsPointSolid m (x + radius) (y - radius) ||
  Collision.IsPointSolid m (x - radius) (y + radius) ||
  Collision.IsPointSolid m (x + radius) (y + radius)

/-- Collision::MoveWithCollision (Collision.cpp lines 54-74): the X
displacement is attempted alone at `(to.x, from.y)` and kept only when the
circle there is clear; the Y displacement is then attempted at the possibly
adjusted X. -/
def Collision.MoveWithCollision (m : GridMap) (fromPos toPos : Vec2 ℚ)
    (radius : ℚ) : Vec2 ℚ :=
  let rx := if Collision.IsCircleColliding m toPos.x fromPos.y radius = false
            then toPos.x else fromPos.x
  let ry := if Collision.IsCircleColliding m rx toPos.y radius = false
            then toPos.y else fromPos.y
  ⟨rx, ry⟩

/-- Interaction raycast result (Collision.h), default-initialized to a
miss. -/
structure InteractionHit where
  hit : Bool
  hitPoint : Vec2 ℚ
  distance : ℚ
  tileX : ℤ
  tileY : ℤ
deriving DecidableEq, Repr

/-- Default-constructed interaction hit record (a miss). -/
def InteractionHit.init : InteractionHit := ⟨false, ⟨0, 0⟩, 0, 0, 0⟩

/-- Loop body of Collision::RaycastInteraction (Collision.cpp lines
106-126): while the marched distance stays below the maximum, the current
cell is tested (out of bounds breaks as a miss, a solid cell reports a hit
at the current point and distance) and otherwise the point advances by the
fixed step `0.1` along the direction.  The C++ `while` is modeled with
explicit fuel; `RaycastInteraction` supplies enough fuel for the loop to
run to its real exit. -/
def Collision.raycastLoop (m : GridMap) (dir : Vec2 ℚ) (maxDistance : ℚ) :
    ℕ → Vec2 ℚ → ℚ → InteractionHit
  | 0, _, _ => InteractionHit.init
  | fuel + 1, current, distance =>
      if distance < maxDistance then
        let tileX := ⌊current.x⌋
        let tileY := ⌊current.y⌋
        if m.IsValid tileX tileY = false then InteractionHit.init
        else if m.IsSolid tileX tileY then ⟨true, current, distance, tileX, tileY⟩
        else Collision.raycastLoop m dir maxDistance fuel
               ⟨current.x + dir.x * (1/10), current.y + dir.y * (1/10)⟩
               (distance + 1/10)
      else InteractionHit.init

/-- Collision::RaycastInteraction (Collision.cpp lines 96-129) for an
already-normalized direction: the source first normalizes `direction`
(`Vec2::Normalized`, a floating-point square root); `dir` here stands for
that normalized vector, and the fixed-step march starts at the origin with
distance 0.  The fuel `⌈maxDistance*10⌉+1` covers every iteration the C++
`while (distance < maxDistance)` loop can make, since the distance grows by
exactly `1/10` per iteration. -/
def Collision.RaycastInteraction (m : GridMap) (origin dir : Vec2 ℚ)
    (maxDistance : ℚ) : InteractionHit :=
  Collision.raycastLoop m dir maxDistance (⌈maxDistance * 10⌉.toNat + 1) origin 0

/-! The DDA wall raycaster, Raycaster.cpp. -/

/-- Wall-ray hit record (Raycaster.h), default-constructed as a miss with
zeroed fields. -/
structure RaycastHit where
  distance : ℚ
  hitPoint : Vec2 ℚ
  mapX : ℤ
  mapY : ℤ
  side : ℤ
  wallX : ℚ
  wallType : ℤ
  hit : Bool
deriving DecidableEq, Repr

/-- Default-constructed RaycastHit (a miss). -/
def RaycastHit.init : RaycastHit := ⟨0, ⟨0, 0⟩, 0, 0, 0, 0, 0, false⟩

/-- Per-axis DDA delta distance (Raycaster.cpp lines 24-25): the sentinel
`1e30` replaces `|1/component|` for a zero component. -/
def deltaDist (component : ℚ) : ℚ :=
  if component = 0 then 10 ^ 30 else |1 / component|

/-- Mutable state of the DDA loop: current cell, accumulated side distances,
and which axis was stepped last. -/
structure DdaState where
  mapX : ℤ
  mapY : ℤ
  sideDistX : ℚ
  sideDistY : ℚ
  side : ℤ
deriving DecidableEq, Repr

/-- One step of the DDA loop (Raycaster.cpp lines 51-59): the axis with the
smaller accumulated side distance is stepped and recorded in `side`. -/
def ddaStep (stepX stepY : ℤ) (dX dY : ℚ) (s : DdaState) : DdaState :=
  if s.sideDistX < s.sideDistY then
    { s with sideDistX := s.sideDistX + dX, mapX := s.mapX + stepX, side := 0 }
  else
    { s with sideDistY := s.sideDistY + dY, mapY := s.mapY + stepY, side := 1 }

/-- The DDA loop (Raycaster.cpp lines 50-68): step, then break out of bounds
(`some (false, s)`, a miss) or on a solid cell (`some (true, s)`, a hit).
The C++ `while` is modeled with fuel; `none` means the fuel ran out, which
`ddaRun_ne_none` below proves never happens for the fuel `CastRay`
supplies. -/
def ddaLoop (m : GridMap) (stepX stepY : ℤ) (dX dY : ℚ) :
    ℕ → DdaState → Option (Bool × DdaState)
  | 0, _ => none
  | fuel + 1, s =>
      let s1 := ddaStep stepX stepY dX dY s
      if m.IsValid s1.mapX s1.mapY = false then some (false, s1)
      else if m.IsSolid s1.mapX s1.mapY then some (true, s1)
      else ddaLoop m stepX stepY dX dY fuel s1

/-- DDA initialization (Raycaster.cpp lines 21-44): start cell from floored
origin, per-axis step signs and initial side distances chosen by the sign
of the direction component.  Returned as (stepX, stepY, initial state). -/
def ddaSetup (origin direction : Vec2 ℚ) : ℤ × ℤ × DdaState :=
  let mapX := ⌊origin.x⌋
  let mapY := ⌊origin.y⌋
  let dX := deltaDist direction.x
  let dY := deltaDist direction.y
  let stepX : ℤ := if direction.x < 0 then -1 else 1
  let sideDistX : ℚ := if direction.x < 0 then (origin.x - mapX) * dX
                       else ((mapX : ℚ) + 1 - origin.x) * dX
  let stepY : ℤ := if direction.y < 0 then -1 else 1
  let sideDistY : ℚ := if direction.y < 0 then (origin.y - mapY) * dY
                       else ((mapY : ℚ) + 1 - origin.y) * dY
  (stepX, stepY, ⟨mapX, mapY, sideDistX, sideDistY, 0⟩)

/-- Fuel sufficient for the DDA loop: one step either leaves the map (the
loop breaks at once) or lands in a valid cell, from which at most
`width - 1` monotone X steps and `height - 1` monotone Y steps can stay in
bounds. -/
def ddaFuel (m : GridMap) : ℕ := m.width.toNat + m.height.toNat + 2

/-- The full DDA run of Raycaster::CastRay for a given origin and
direction: setup followed by the loop with sufficient fuel. -/
def ddaRun (m : GridMap) (origin direction : Vec2 ℚ) : Option (Bool × DdaState) :=
  let su := ddaSetup origin direction
  ddaLoop m su.1 su.2.1 (deltaDist direction.x) (deltaDist direction.y)
    (ddaFuel m) su.2.2

/-- Perpendicular wall distance (Raycaster.cpp lines 76-81): the accumulated
side distance of the last-stepped axis minus that axis's delta distance. -/
def perpWallDist (direction : Vec2 ℚ) (s : DdaState) : ℚ :=
  if s.side = 0 then s.sideDistX - deltaDist direction.x
  else s.sideDistY - deltaDist direction.y

/-- Raycaster::CastRay (Raycaster.cpp lines 17-110): run the DDA; a loop
exit out of bounds is a miss; on a solid cell the perpendicular distance is
computed and the hit is rejected when it exceeds `maxDistance`; otherwise
the hit record is filled with the distance, cell, side, wall fraction
(fractional part of the hit point's coordinate along the non-stepped axis)
and wall type. -/
def Raycaster.CastRay (origin direction : Vec2 ℚ) (m : GridMap)
    (maxDistance : ℚ) : RaycastHit :=
  match ddaRun m origin direction with
  | none => RaycastHit.init
  | some (false, _) => RaycastHit.init
  | some (true, s) =>
      let pwd := perpWallDist direction s
      if maxDistance < pwd then RaycastHit.init
      else
        let wallX0 := if s.side = 0 then origin.y + pwd * direction.y
                      else origin.x + pwd * direction.x
        let wallX := wallX0 - ⌊wallX0⌋
        { distance := pwd,
          hitPoint := ⟨origin.x + direction.x * pwd, origin.y + direction.y * pwd⟩,
          mapX := s.mapX, mapY := s.mapY, side := s.side, wallX := wallX,
          wallType := if m.IsValid s.mapX s.mapY then (m.tiles s.mapX s.mapY).wallType
                      else 0,
          hit := true }

/-! The billboard sprite renderer, SpriteRenderer.cpp. -/

/-- Projected sprite record (SpriteRenderer.h): the back-reference
`SpriteEntity*` is modeled as an abstract entity identifier. -/
structure SpriteRenderInfo where
  entity : ℕ
  distance : ℚ
  screenX : ℚ
  screenY : ℚ
  screenSize : ℚ
deriving DecidableEq, Repr

/-- Inner loop of SpriteRenderer::SortSpritesByDistance: one bubble pass
performing `n` adjacent compare-swaps from the front of the list, swapping
when the earlier record's distance is smaller (so larger distances move
forward).  Elements beyond the first `n + 1` are untouched, matching the
C++ inner bound `j < count - i - 1`. -/
def bubblePass : ℕ → List SpriteRenderInfo → List SpriteRenderInfo
  | _, [] => []
  | 0, l => l
  | _ + 1, [a] => [a]
  | n + 1, a :: b :: rest =>
      if a.distance < b.distance then b :: bubblePass n (a :: rest)
      else a :: bubblePass n (b :: rest)

/-- Outer loop of SpriteRenderer::SortSpritesByDistance: passes of
`k, k-1, …, 1` compare-swaps. -/
def bubbleOuter : ℕ → List SpriteRenderInfo → List SpriteRenderInfo
  | 0, l => l
  | k + 1, l => bubbleOuter k (bubblePass (k + 1) l)

/-- SpriteRenderer::SortSpritesByDistance (SpriteRenderer.cpp lines 66-78):
bubble sort into non-increasing distance order; the outer loop runs
`count - 1` times with the inner bound `count - i - 1`. -/
def SpriteRenderer.SortSpritesByDistance (l : List SpriteRenderInfo) :
    List SpriteRenderInfo :=
  bubbleOuter (l.length - 1) l

/-- Camera direction (RaycastCamera.cpp GetDirection): `(cos θ, sin θ)`. -/
noncomputable def RaycastCamera.GetDirection (rotation : ℝ) : Vec2 ℝ :=
  ⟨Real.cos rotation, Real.sin rotation⟩

/-- Camera right vector (RaycastCamera.cpp GetRightVector): the direction
rotated +90 degrees, `(-sin θ, cos θ)`. -/
noncomputable def RaycastCamera.GetRightVector (rotation : ℝ) : Vec2 ℝ :=
  ⟨-Real.sin rotation, Real.cos rotation⟩

/-- Successful output of SpriteRenderer::ProjectToScreen: the four `out`
reference parameters. -/
structure ProjectResult where
  screenX : ℝ
  screenY : ℝ
  screenSize : ℝ
  distance : ℝ

/-- SpriteRenderer::ProjectToScreen (SpriteRenderer.cpp lines 10-64) for a
camera with position `cameraPos` and rotation `cameraRot`.  Rejections
(`return false`) become `none`: a distance below `0.01`, or a
forward-angle (arccos of the dot with the camera direction) above the
constant `1.5708`.  Otherwise the side angle is the arcsin of the dot of
the normalized to-sprite vector with the local perpendicular
`(cameraDir.y, -cameraDir.x)`, and screen X uses the hard-coded constant
`fov = 0.66`.  `Vec2::Normalized` divides by the Euclidean length (its
degenerate branch is unreachable here because the length is at least
`0.01 > 0.0001`). -/
noncomputable def SpriteRenderer.ProjectToScreen (worldPos : Vec2 ℝ)
    (worldHeight : ℝ) (cameraPos : Vec2 ℝ) (cameraRot : ℝ)
    (screenWidth screenHeight : ℤ) : Option ProjectResult :=
  let toSpriteX := worldPos.x - cameraPos.x
  let toSpriteY := worldPos.y - cameraPos.y
  let dist := Real.sqrt (toSpriteX * toSpriteX + toSpriteY * toSpriteY)
  if dist < 1/100 then none
  else
    let cameraDir := RaycastCamera.GetDirection cameraRot
    let spriteDirX := toSpriteX / dist
    let spriteDirY := toSpriteY / dist
    let d := cameraDir.x * spriteDirX + cameraDir.y * spriteDirY
    let angle := Real.arccos d
    if 15708/10000 < angle then none
    else
      let sideDot := cameraDir.y * spriteDirX + (-cameraDir.x) * spriteDirY
      let sideAngle := Real.arcsin sideDot
      let fov : ℝ := 66/100
      let screenX := (screenWidth : ℝ) / 2 + (sideAngle / fov) * ((screenWidth : ℝ) / 2)
      let screenY := (screenHeight : ℝ) / 2 - (worldHeight / dist) * ((screenHeight : ℝ) / 2)
      let spriteScale := 1 / dist
      some ⟨screenX, screenY, spriteScale * (screenHeight : ℝ) * (1/2), dist⟩

/-- Modelled from the spec, for comparison with the code: the claimed
screen X formula `W/2 + (sideAngle/FOV)·(W/2)` where `sideAngle` is the
arcsin of the dot product of the normalized to-sprite direction with the
camera's right vector `GetRightVector` and `FOV` is the camera's
configured field-of-view angle. -/
noncomputable def projectScreenXSpec (worldPos : Vec2 ℝ) (cameraPos : Vec2 ℝ)
    (cameraRot fovConfigured : ℝ) (screenWidth : ℤ) : ℝ :=
  let toSpriteX := worldPos.x - cameraPos.x
  let toSpriteY := worldPos.y - cameraPos.y
  let dist := Real.sqrt (toSpriteX * toSpriteX + toSpriteY * toSpriteY)
  let right := RaycastCamera.GetRightVector cameraRot
  let sideDot := right.x * (toSpriteX / dist) + right.y * (toSpriteY / dist)
  let sideAngle := Real.arcsin sideDot
  (screenWidth : ℝ) / 2 + (sideAngle / fovConfigured) * ((screenWidth : ℝ) / 2)

/-- The screen X formula the code actually computes, phrased against the
camera's right vector: because the code's perpendicular
`(cameraDir.y, -cameraDir.x)` is the negation of `GetRightVector`, and its
FOV divisor is the hard-coded constant 0.66, the projected X is
`W/2 - (arcsin(dot(spriteDir, GetRightVector))/0.66)·(W/2)`. -/
noncomputable def projectScreenXAmended (worldPos : Vec2 ℝ) (cameraPos : Vec2 ℝ)
    (cameraRot : ℝ) (screenWidth : ℤ) : ℝ :=
  let toSpriteX := worldPos.x - cameraPos.x
  let toSpriteY := worldPos.y - cameraPos.y
  let dist := Real.sqrt (toSpriteX * toSpriteX + toSpriteY * toSpriteY)
  let right := RaycastCamera.GetRightVector cameraRot
  let sideDot := right.x * (toSpriteX / dist) + right.y * (toSpriteY / dist)
  (screenWidth : ℝ) / 2 - (Real.arcsin sideDot / (66/100)) * ((screenWidth : ℝ) / 2)

/-- Non-increasing distance order on projected sprite records. -/
def DistGE (a b : SpriteRenderInfo) : Prop := b.distance ≤ a.distance

/-- Termination measure for the DDA loop: how many more steps each axis can
take before leaving the map on the far side it is stepping toward. -/
def ddaBound (m : GridMap) (stepX stepY : ℤ) (s : DdaState) : ℕ :=
  (if stepX = 1 then (m.width - s.mapX).toNat else (s.mapX + 1).toNat) +
  (if stepY = 1 then (m.height - s.mapY).toNat else (s.mapY + 1).toNat)

/-- Loop invariant of the DDA: each accumulated side distance equals the
distance expression determined by the current cell, the origin and the
step sign — for a positive step the distance to the far edge of the
current cell, for a negative step the distance to its near edge. -/
def SideInv (origin : Vec2 ℚ) (stepX stepY : ℤ) (dX dY : ℚ) (s : DdaState) : Prop :=
  s.sideDistX =
    (if stepX = 1 then (s.mapX : ℚ) + 1 - origin.x else origin.x - s.mapX) * dX ∧
  s.sideDistY =
    (if stepY = 1 then (s.mapY : ℚ) + 1 - origin.y else origin.y - s.mapY) * dY

/-! Concrete maps and doors used to instantiate the theorems below. -/

/-- A 2-by-1 map whose tile (0,0) is solid and carries an Open door. -/
def mDoorOpen : GridMap :=
  { width := 2, height := 1,
    tiles := fun x _ => ⟨0, 0, 0, decide (x = 0)⟩,
    doors := [⟨1/2, 1/2, DoorState.Open, 1, false, 0⟩] }

/-- A 3-by-3 map already holding MAX_DOORS doors, one of them at cell
(1,1). -/
def mFull : GridMap :=
  { width := 3, height := 3,
    tiles := fun _ _ => Tile.init,
    doors := ⟨3/2, 3/2, DoorState.Closed, 0, false, 0⟩ ::
             List.replicate 127 ⟨5/2, 5/2, DoorState.Closed, 0, false, 0⟩ }

/-- A map with nonzero dimensions, standing for previously created state. -/
def mPrev : GridMap :=
  { width := 5, height := 4, tiles := fun _ _ => Tile.init, doors := [] }

/-- A 3-by-3 map whose column x = 2 is solid. -/
def mWall : GridMap :=
  { width := 3, height := 3,
    tiles := fun x _ => ⟨0, 0, 0, decide (x = 2)⟩,
    doors := [] }

/-- A 3-by-1 corridor whose east end (2,0) is solid. -/
def mCorridor : GridMap :=
  { width := 3, height := 1,
    tiles := fun x _ => ⟨0, 0, 0, decide (x = 2)⟩,
    doors := [] }

/-- A 4-by-4 room: solid boundary ring, empty interior. -/
def mRoom : GridMap :=
  { width := 4, height := 4,
    tiles := fun x y => ⟨0, 0, 0, decide (x = 0 ∨ x = 3 ∨ y = 0 ∨ y = 3)⟩,
    doors := [] }

/-! Theorems. -/

/-- C2: for every map and integer coordinate, IsSolid returns true out of
bounds; for an in-bounds cell it returns false when a door occupying the
cell is Open, regardless of the tile's solid flag, and otherwise returns
exactly the tile's solid flag. -/
theorem claim_C2 (m : GridMap) (x y : ℤ) :
    (m.IsValid x y = false → m.IsSolid x y = true) ∧
    (m.IsValid x y = true →
      ((∃ d, m.GetDoorAt x y = some d ∧ d.state = DoorState.Open) →
          m.IsSolid x y = false) ∧
      ((∀ d, m.GetDoorAt x y = some d → d.state ≠ DoorState.Open) →
          m.IsSolid x y = (m.tiles x y).solid)) := by
  refine ⟨fun hv => ?_, fun hv => ⟨fun hopen => ?_, fun hclosed => ?_⟩⟩
  · simp [GridMap.IsSolid, hv]
  · obtain ⟨d, hd, hds⟩ := hopen
    simp [GridMap.IsSolid, hv, hd, DoorSystem.IsOpen, hds]
  · rcases hfind : m.GetDoorAt x y with _ | d
    · simp [GridMap.IsSolid, hv, hfind]
    · have hne := hclosed d hfind
      simp [GridMap.IsSolid, hv, hfind, DoorSystem.IsOpen, hne]

/-- Witness for C2 on the concrete map `mDoorOpen`: coordinate (-1,0) is
out of bounds and solid; cell (0,0) is solid-tiled but carries an Open
door, hence not solid. -/
theorem claim_C2_witness :
    mDoorOpen.IsSolid (-1) 0 = true ∧ mDoorOpen.IsSolid 0 0 = false := by
  constructor
  · exact (claim_C2 mDoorOpen (-1) 0).1 (by decide)
  · exact ((claim_C2 mDoorOpen 0 0).2 (by decide)).1
      ⟨⟨1/2, 1/2, DoorState.Open, 1, false, 0⟩,
       by norm_num [mDoorOpen, GridMap.GetDoorAt, GridMap.IsValid, List.find?], rfl⟩

/-- C5: doors created by CreateDoorAt start Closed with progress 0; TryOpen
on a Closed unlocked door yields Opening; Update drives Opening to Open
with progress clamped to exactly 1 and Closing to Closed with progress
clamped to exactly 0, never negative; Close moves an Open door to Closing;
and every operation keeps openProgress within [0,1] (TryOpen and Close do
not change it, Update preserves the interval for nonnegative time
steps). -/
theorem claim_C5 :
    (∀ (m : GridMap) (x y : ℤ) (d : Door) (m' : GridMap),
        m.CreateDoorAt x y = (some d, m') → m.GetDoorAt x y = none →
        d.state = DoorState.Closed ∧ d.openProgress = 0) ∧
    (∀ (d : Door) (keyId : ℤ), d.state = DoorState.Closed → d.locked = false →
        (DoorSystem.TryOpen d keyId).1 = true ∧
        (DoorSystem.TryOpen d keyId).2.state = DoorState.Opening) ∧
    (∀ (d : Door) (dt : ℚ), d.state = DoorState.Opening →
        1 ≤ d.openProgress + 2 * dt →
        (DoorSystem.Update d dt).state = DoorState.Open ∧
        (DoorSystem.Update d dt).openProgress = 1) ∧
    (∀ (d : Door) (dt : ℚ), d.state = DoorState.Closing →
        d.openProgress - 2 * dt ≤ 0 →
        (DoorSystem.Update d dt).state = DoorState.Closed ∧
        (DoorSystem.Update d dt).openProgress = 0) ∧
    (∀ d : Door, d.state = DoorState.Open →
        (DoorSystem.Close d).state = DoorState.Closing) ∧
    (∀ (d : Door) (dt : ℚ), 0 ≤ dt → 0 ≤ d.openProgress → d.openProgress ≤ 1 →
        0 ≤ (DoorSystem.Update d dt).openProgress ∧
        (DoorSystem.Update d dt).openProgress ≤ 1) ∧
    (∀ (d : Door) (keyId : ℤ),
        (DoorSystem.TryOpen d keyId).2.openProgress = d.openProgress) ∧
    (∀ d : Door, (DoorSystem.Close d).openProgress = d.openProgress) := by
  refine ⟨?_, ?_, ?_, ?_, ?_, ?_, ?_, ?_⟩
  · intro m x y d m' hc hg
    unfold GridMap.CreateDoorAt at hc
    by_cases hv : m.IsValid x y = false
    · simp [hv] at hc
    · rw [if_neg hv] at hc
      by_cases hcap : MAX_DOORS ≤ m.doors.length
      · simp [hcap] at hc
      · rw [if_neg hcap, hg] at hc
        have h1 : (some (⟨(x : ℚ) + 1/2, (y : ℚ) + 1/2,
            DoorState.Closed, 0, false, 0⟩ : Door) : Option Door) = some d :=
          congrArg Prod.fst hc
        cases h1
        exact ⟨rfl, rfl⟩
  · intro d keyId hst hlk
    simp [DoorSystem.TryOpen, hlk, hst]
  · intro d dt hst hp
    simp [DoorSystem.Update, hst, hp]
  · intro d dt hst hp
    simp [DoorSystem.Update, hst, hp]
  · intro d hst
    simp [DoorSystem.Close, hst]
  · intro d dt hdt h0 h1
    unfold DoorSystem.Update
    rcases d with ⟨px, py, st, p, lk, kid⟩
    cases st <;> simp only
    case Opening =>
      by_cases hc : (1 : ℚ) ≤ p + 2 * dt
      · simp [hc]
      · rw [if_neg hc]
        simp only at h0 h1 ⊢
        constructor <;> [linarith; linarith]
    case Closing =>
      by_cases hc : p - 2 * dt ≤ 0
      · simp [hc]
      · rw [if_neg hc]
        simp only at h0 h1 ⊢
        constructor <;> [linarith; linarith]
    all_goals exact ⟨h0, h1⟩
  · intro d keyId
    unfold DoorSystem.TryOpen DoorSystem.TryUnlock
    by_cases hlk : d.locked <;> by_cases hcl : d.state = DoorState.Closed <;>
      by_cases hkey : keyId = d.lockId ∨ d.lockId = 0 <;>
      simp [hlk, hcl, hkey]
  · intro d
    unfold DoorSystem.Close
    by_cases hst : d.state = DoorState.Open <;> simp [hst]

/-- Witness for C5: every conjunct applied at a concrete door.  A door
freshly created at cell (1,1) of mWall is Closed at progress 0; TryOpen
sends a Closed unlocked door to Opening; an Update of 0.3 seconds drives an
Opening door at progress 0.5 to Open at exactly progress 1; an Update of
0.3 seconds drives a Closing door at progress 0.5 to Closed at exactly
progress 0; Close sends an Open door to Closing; and a small Update keeps
progress inside [0,1]. -/
theorem claim_C5_witness :
    ((mWall.CreateDoorAt 1 1).1.map Door.state = some DoorState.Closed) ∧
    ((mWall.CreateDoorAt 1 1).1.map Door.openProgress = some 0) ∧
    (DoorSystem.TryOpen ⟨0, 0, DoorState.Closed, 0, false, 0⟩ 0).2.state =
      DoorState.Opening ∧
    (DoorSystem.Update ⟨0, 0, DoorState.Opening, 1/2, false, 0⟩ (3/10)).state =
      DoorState.Open ∧
    (DoorSystem.Update ⟨0, 0, DoorState.Opening, 1/2, false, 0⟩ (3/10)).openProgress = 1 ∧
    (DoorSystem.Update ⟨0, 0, DoorState.Closing, 1/2, false, 0⟩ (3/10)).state =
      DoorState.Closed ∧
    (DoorSystem.Update ⟨0, 0, DoorState.Closing, 1/2, false, 0⟩ (3/10)).openProgress = 0 ∧
    (DoorSystem.Close ⟨0, 0, DoorState.Open, 1, false, 0⟩).state = DoorState.Closing ∧
    0 ≤ (DoorSystem.Update ⟨0, 0, DoorState.Opening, 1/2, false, 0⟩ (1/10)).openProgress ∧
    (DoorSystem.Update ⟨0, 0, DoorState.Opening, 1/2, false, 0⟩ (1/10)).openProgress ≤ 1 := by
  have hc : mWall.CreateDoorAt 1 1 =
      (some ⟨3/2, 3/2, DoorState.Closed, 0, false, 0⟩,
       { mWall with doors := mWall.doors ++
           [⟨3/2, 3/2, DoorState.Closed, 0, false, 0⟩] }) := by
    norm_num [GridMap.CreateDoorAt, GridMap.GetDoorAt, GridMap.IsValid,
      mWall, MAX_DOORS, List.find?]
  have hg : mWall.GetDoorAt 1 1 = none := by
    norm_num [GridMap.GetDoorAt, GridMap.IsValid, mWall, List.find?]
  obtain ⟨hstate, hprog⟩ :=
    claim_C5.1 mWall 1 1 ⟨3/2, 3/2, DoorState.Closed, 0, false, 0⟩
      { mWall with doors := mWall.doors ++
          [⟨3/2, 3/2, DoorState.Closed, 0, false, 0⟩] } hc hg
  refine ⟨by rw [hc]; simp [hstate], by rw [hc]; simp [hprog], ?_, ?_, ?_, ?_, ?_, ?_, ?_, ?_⟩
  · exact (claim_C5.2.1 ⟨0, 0, DoorState.Closed, 0, false, 0⟩ 0 rfl rfl).2
  · exact (claim_C5.2.2.1 ⟨0, 0, DoorState.Opening, 1/2, false, 0⟩ (3/10) rfl
      (by norm_num)).1
  · exact (claim_C5.2.2.1 ⟨0, 0, DoorState.Opening, 1/2, false, 0⟩ (3/10) rfl
      (by norm_num)).2
  · exact (claim_C5.2.2.2.1 ⟨0, 0, DoorState.Closing, 1/2, false, 0⟩ (3/10) rfl
      (by norm_num)).1
  · exact (claim_C5.2.2.2.1 ⟨0, 0, DoorState.Closing, 1/2, false, 0⟩ (3/10) rfl
      (by norm_num)).2
  · exact claim_C5.2.2.2.2.1 ⟨0, 0, DoorState.Open, 1, false, 0⟩ rfl
  · exact (claim_C5.2.2.2.2.2.1 ⟨0, 0, DoorState.Opening, 1/2, false, 0⟩ (1/10)
      (by norm_num) (by norm_num) (by norm_num)).1
  · exact (claim_C5.2.2.2.2.2.1 ⟨0, 0, DoorState.Opening, 1/2, false, 0⟩ (1/10)
      (by norm_num) (by norm_num) (by norm_num)).2

/-- C6: MoveWithCollision resolves each axis independently — the X
displacement is accepted exactly when the five-point circle test at
(to.x, from.y) is clear, else X stays at from.x; then the Y displacement is
accepted exactly when the test at the adjusted X and to.y is clear, else Y
stays at from.y.  Consequently a diagonal move blocked only on X slides
along Y, one blocked only on Y slides along X, and a move blocked on both
axes yields zero net displacement.  The circle test samples the center and
the four corner offsets (±radius, ±radius). -/
theorem claim_C6 (m : GridMap) (fromPos toPos : Vec2 ℚ) (radius : ℚ) :
    (∀ x y : ℚ, Collision.IsCircleColliding m x y radius =
      (Collision.IsPointSolid m x y ||
       Collision.IsPointSolid m (x - radius) (y - radius) ||
       Collision.IsPointSolid m (x + radius) (y - radius) ||
       Collision.IsPointSolid m (x - radius) (y + radius) ||
       Collision.IsPointSolid m (x + radius) (y + radius))) ∧
    ((Collision.MoveWithCollision m fromPos toPos radius).x =
      if Collision.IsCircleColliding m toPos.x fromPos.y radius = false
      then toPos.x else fromPos.x) ∧
    ((Collision.MoveWithCollision m fromPos toPos radius).y =
      if Collision.IsCircleColliding m
           (Collision.MoveWithCollision m fromPos toPos radius).x toPos.y radius = false
      then toPos.y else fromPos.y) ∧
    (Collision.IsCircleColliding m toPos.x fromPos.y radius = true →
     Collision.IsCircleColliding m fromPos.x toPos.y radius = false →
     Collision.MoveWithCollision m fromPos toPos radius = ⟨fromPos.x, toPos.y⟩) ∧
    (Collision.IsCircleColliding m toPos.x fromPos.y radius = false →
     Collision.IsCircleColliding m toPos.x toPos.y radius = true →
     Collision.MoveWithCollision m fromPos toPos radius = ⟨toPos.x, fromPos.y⟩) ∧
    (Collision.IsCircleColliding m toPos.x fromPos.y radius = true →
     Collision.IsCircleColliding m fromPos.x toPos.y radius = true →
     Collision.MoveWithCollision m fromPos toPos radius = fromPos) := by
  refine ⟨fun x y => rfl, ?_, ?_, ?_, ?_, ?_⟩
  · unfold Collision.MoveWithCollision
    by_cases hx : Collision.IsCircleColliding m toPos.x fromPos.y radius = false <;>
      simp [hx]
  · unfold Collision.MoveWithCollision
    by_cases hx : Collision.IsCircleColliding m toPos.x fromPos.y radius = false <;>
      by_cases hy : Collision.IsCircleColliding m
        (if Collision.IsCircleColliding m toPos.x fromPos.y radius = false
         then toPos.x else fromPos.x) toPos.y radius = false <;>
      simp_all
  · intro hx hy
    unfold Collision.MoveWithCollision
    simp [hx, hy]
  · intro hx hy
    unfold Collision.MoveWithCollision
    simp [hx, hy]
  · intro hx hy
    unfold Collision.MoveWithCollision
    simp [hx, hy]

/-- Witness for C6 on mWall (solid column x = 2): the diagonal move from
(3/2, 3/2) toward (11/5, 9/5) with radius 1/5 is blocked on X by the wall
but clear on Y, so the result slides to (3/2, 9/5). -/
theorem claim_C6_witness :
    Collision.MoveWithCollision mWall ⟨3/2, 3/2⟩ ⟨11/5, 9/5⟩ (1/5) = ⟨3/2, 9/5⟩ := by
  have hx : Collision.IsCircleColliding mWall (11/5) (3/2) (1/5) = true := by
    norm_num [Collision.IsCircleColliding, Collision.IsPointSolid,
      GridMap.IsSolid, GridMap.GetDoorAt, GridMap.IsValid, mWall, List.find?,
      Int.floor_eq_iff]
  have hy : Collision.IsCircleColliding mWall (3/2) (9/5) (1/5) = false := by
    norm_num [Collision.IsCircleColliding, Collision.IsPointSolid,
      GridMap.IsSolid, GridMap.GetDoorAt, GridMap.IsValid, mWall, List.find?,
      Int.floor_eq_iff]
  exact (claim_C6 mWall ⟨3/2, 3/2⟩ ⟨11/5, 9/5⟩ (1/5)).2.2.2.1 hx hy

/-- Counterexample to C7 as stated: on the in-bounds cell (1,1) of mFull a
door already exists, yet CreateDoorAt returns null (none), because the
capacity check `m_doorCount >= MAX_DOORS` runs before the existing-door
lookup and the map already holds MAX_DOORS doors. -/
theorem claim_C7_counterexample :
    mFull.IsValid 1 1 = true ∧
    mFull.GetDoorAt 1 1 = some ⟨3/2, 3/2, DoorState.Closed, 0, false, 0⟩ ∧
    (mFull.CreateDoorAt 1 1).1 = none := by
  refine ⟨by decide, ?_, ?_⟩
  · norm_num [mFull, GridMap.GetDoorAt, GridMap.IsValid, List.find?]
  · have hlen : mFull.doors.length = 128 := by
      simp [mFull]
    unfold GridMap.CreateDoorAt
    rw [if_neg (by decide), if_pos (by rw [hlen]; decide)]

/-- C7 amended: for every in-bounds coordinate, CreateDoorAt returns null
whenever the door list is already at capacity — even if a door already
exists at the cell (the capacity check precedes the existing-door lookup);
below capacity it returns the existing door unchanged if one occupies the
cell, and otherwise appends and returns a new Closed door at the tile
center (x+0.5, y+0.5). -/
theorem claim_C7_amended (m : GridMap) (x y : ℤ) (hv : m.IsValid x y = true) :
    (MAX_DOORS ≤ m.doors.length → m.CreateDoorAt x y = (none, m)) ∧
    (m.doors.length < MAX_DOORS →
      (∀ d, m.GetDoorAt x y = some d → m.CreateDoorAt x y = (some d, m)) ∧
      (m.GetDoorAt x y = none →
        m.CreateDoorAt x y =
          (some ⟨(x : ℚ) + 1/2, (y : ℚ) + 1/2, DoorState.Closed, 0, false, 0⟩,
           { m with doors := m.doors ++
               [⟨(x : ℚ) + 1/2, (y : ℚ) + 1/2, DoorState.Closed, 0, false, 0⟩] }))) := by
  have hv' : ¬ m.IsValid x y = false := by simp [hv]
  constructor
  · intro hcap
    unfold GridMap.CreateDoorAt
    rw [if_neg hv', if_pos hcap]
  · intro hcap
    have hcap' : ¬ MAX_DOORS ≤ m.doors.length := by omega
    constructor
    · intro d hd
      unfold GridMap.CreateDoorAt
      rw [if_neg hv', if_neg hcap', hd]
    · intro hd
      unfold GridMap.CreateDoorAt
      rw [if_neg hv', if_neg hcap', hd]

/-- Witness for C7 amended, on mFull (at capacity, returns none despite the
resident door) and on mWall (below capacity: a fresh Closed door at the
tile center of (1,1) is created; and recreating at the same cell then
returns that very door). -/
theorem claim_C7_amended_witness :
    mFull.CreateDoorAt 1 1 = (none, mFull) ∧
    mWall.CreateDoorAt 1 1 =
      (some ⟨(1 : ℚ) + 1/2, (1 : ℚ) + 1/2, DoorState.Closed, 0, false, 0⟩,
       { mWall with doors := mWall.doors ++
           [⟨(1 : ℚ) + 1/2, (1 : ℚ) + 1/2, DoorState.Closed, 0, false, 0⟩] }) := by
  constructor
  · exact (claim_C7_amended mFull 1 1 (by decide)).1 (by simp [mFull, MAX_DOORS])
  · exact ((claim_C7_amended mWall 1 1 (by decide)).2
      (by simp [mWall, MAX_DOORS])).2
      (by norm_num [mWall, GridMap.GetDoorAt, GridMap.IsValid, List.find?])

/-- Counterexample to C8 as stated: Create(0,3) on a map previously created
as 5-by-4 fails (returns false), yet the previous state is not released and
the map is left with width 5, not zero — the non-positive-dimension check
runs before `Destroy()`. -/
theorem claim_C8_counterexample :
    (mPrev.Create 0 3 true true).1 = false ∧
    (mPrev.Create 0 3 true true).2.width = 5 ∧
    (mPrev.Create 0 3 true true).2.width ≠ 0 := by
  have h : mPrev.Create 0 3 true true = (false, mPrev) := by
    unfold GridMap.Create
    rw [if_pos (by left; rfl)]
  rw [h]
  exact ⟨rfl, rfl, by decide⟩

/-- C8 amended: Create returns false for non-positive dimensions or for
allocation failure; on allocation failure the previous state has been
released and the map is left empty and safe with zero width, zero height
and no doors; on non-positive dimensions, however, the failure occurs
before the previous state is released, so the map retains its previous
state unchanged. -/
theorem claim_C8_amended (m : GridMap) (width height : ℤ)
    (allocTilesOk allocDoorsOk : Bool) :
    (width ≤ 0 ∨ height ≤ 0 →
      m.Create width height allocTilesOk allocDoorsOk = (false, m)) ∧
    (0 < width → 0 < height → allocTilesOk = false ∨ allocDoorsOk = false →
      (m.Create width height allocTilesOk allocDoorsOk).1 = false ∧
      (m.Create width height allocTilesOk allocDoorsOk).2.width = 0 ∧
      (m.Create width height allocTilesOk allocDoorsOk).2.height = 0 ∧
      (m.Create width height allocTilesOk allocDoorsOk).2.doors = []) := by
  constructor
  · intro hdim
    unfold GridMap.Create
    rw [if_pos hdim]
  · intro hw hh halloc
    have hdim : ¬ (width ≤ 0 ∨ height ≤ 0) := by omega
    unfold GridMap.Create
    rw [if_neg hdim]
    rcases halloc with h | h
    · rw [if_pos h]
      exact ⟨rfl, rfl, rfl, rfl⟩
    · rcases ht : allocTilesOk with _ | _
      · rw [if_pos rfl]
        exact ⟨rfl, rfl, rfl, rfl⟩
      · rw [if_neg (by simp), if_pos h]
        exact ⟨rfl, rfl, rfl, rfl⟩

/-- Witness for C8 amended: Create(0,3) on the 5-by-4 map fails leaving the
map unchanged, and Create(8,6) with a failing tile allocation fails leaving
an empty zero-dimension map. -/
theorem claim_C8_amended_witness :
    mPrev.Create 0 3 true true = (false, mPrev) ∧
    (mPrev.Create 8 6 false true).1 = false ∧
    (mPrev.Create 8 6 false true).2.width = 0 ∧
    (mPrev.Create 8 6 false true).2.height = 0 ∧
    (mPrev.Create 8 6 false true).2.doors = [] := by
  refine ⟨?_, ?_⟩
  · exact (claim_C8_amended mPrev 0 3 true true).1 (by left; decide)
  · exact (claim_C8_amended mPrev 8 6 false true).2 (by decide) (by decide)
      (by left; rfl)

/-- One bubble pass permutes its input. -/
theorem bubblePass_perm (n : ℕ) :
    ∀ l : List SpriteRenderInfo, (bubblePass n l).Perm l := by
  induction n with
  | zero =>
    intro l
    cases l <;> simp [bubblePass]
  | succ n ih =>
    intro l
    match l with
    | [] => simp [bubblePass]
    | [a] => simp [bubblePass]
    | a :: b :: rest =>
      rw [bubblePass]
      split
      · exact ((ih (a :: rest)).cons b).trans (List.Perm.swap a b rest)
      · exact (ih (b :: rest)).cons a

/-- A bubble pass of `n` compare-swaps touches only the first `n + 1`
elements; a later suffix is carried through unchanged. -/
theorem bubblePass_append (n : ℕ) :
    ∀ l1 l2 : List SpriteRenderInfo, n + 1 ≤ l1.length →
      bubblePass n (l1 ++ l2) = bubblePass n l1 ++ l2 := by
  induction n with
  | zero =>
    intro l1 l2 h
    match l1 with
    | a :: t => cases t <;> cases l2 <;> simp [bubblePass]
  | succ n ih =>
    intro l1 l2 h
    match l1 with
    | [a] => simp at h
    | a :: b :: t =>
      have ht : n + 1 ≤ (a :: t).length := by
        simpa using Nat.le_of_succ_le_succ h
      have ht' : n + 1 ≤ (b :: t).length := by
        simpa using Nat.le_of_succ_le_succ h
      show bubblePass (n + 1) (a :: b :: (t ++ l2)) = _
      rw [bubblePass, bubblePass]
      split
      · rw [show a :: (t ++ l2) = (a :: t) ++ l2 from rfl, ih (a :: t) l2 ht]
        rfl
      · rw [show b :: (t ++ l2) = (b :: t) ++ l2 from rfl, ih (b :: t) l2 ht']
        rfl

/-- A full bubble pass (length minus one compare-swaps) deposits a minimum
of the list in the last position. -/
theorem bubblePass_full (k : ℕ) :
    ∀ l : List SpriteRenderInfo, l.length = k + 1 →
      ∃ l2 mn, bubblePass k l = l2 ++ [mn] ∧
        ∀ x ∈ l, mn.distance ≤ x.distance := by
  induction k with
  | zero =>
    intro l hl
    match l, hl with
    | [a], _ =>
      refine ⟨[], a, by simp [bubblePass], ?_⟩
      intro x hx
      simp at hx
      simp [hx]
  | succ k ih =>
    intro l hl
    match l with
    | a :: b :: rest =>
      have hlen : (rest.length) = k := by simpa using hl
      rw [bubblePass]
      split
      case isTrue hab =>
        obtain ⟨l2, mn, heq, hmin⟩ := ih (a :: rest) (by simp [hlen])
        refine ⟨b :: l2, mn, by rw [heq]; rfl, ?_⟩
        intro x hx
        rcases hx with _ | ⟨_, hx⟩
        · exact hmin a (by simp)
        · rcases hx with _ | ⟨_, hx⟩
          · exact le_trans (hmin a (by simp)) (le_of_lt hab)
          · exact hmin x (List.mem_cons_of_mem _ hx)
      case isFalse hab =>
        obtain ⟨l2, mn, heq, hmin⟩ := ih (b :: rest) (by simp [hlen])
        refine ⟨a :: l2, mn, by rw [heq]; rfl, ?_⟩
        intro x hx
        rcases hx with _ | ⟨_, hx⟩
        · exact le_trans (hmin b (by simp)) (le_of_not_lt hab)
        · rcases hx with _ | ⟨_, hx⟩
          · exact hmin b (by simp)
          · exact hmin x (List.mem_cons_of_mem _ hx)

/-- The outer bubble loop permutes its input. -/
theorem bubbleOuter_perm (k : ℕ) :
    ∀ l : List SpriteRenderInfo, (bubbleOuter k l).Perm l := by
  induction k with
  | zero => intro l; simp [bubbleOuter]
  | succ k ih =>
    intro l
    rw [bubbleOuter]
    exact (ih (bubblePass (k + 1) l)).trans (bubblePass_perm (k + 1) l)

/-- Main invariant of the outer bubble loop: if the working list splits
into a front of length `k + 1` and an already-sorted suffix dominated by
the front, then `k` further passes sort the whole list. -/
theorem bubbleOuter_sorted_aux (k : ℕ) :
    ∀ front tail : List SpriteRenderInfo, front.length = k + 1 →
      List.Sorted DistGE tail →
      (∀ x ∈ front, ∀ y ∈ tail, y.distance ≤ x.distance) →
      List.Sorted DistGE (bubbleOuter k (front ++ tail)) := by
  induction k with
  | zero =>
    intro front tail hlen hsorted hdom
    match front, hlen with
    | [a], _ =>
      rw [bubbleOuter]
      refine List.Pairwise.cons ?_ hsorted
      intro y hy
      exact hdom a (by simp) y hy
  | succ k ih =>
    intro front tail hlen hsorted hdom
    rw [bubbleOuter]
    rw [bubblePass_append (k + 1) front tail (by omega)]
    obtain ⟨l2, mn, heq, hmin⟩ := bubblePass_full (k + 1) front hlen
    rw [heq]
    have hperm : (l2 ++ [mn]).Perm front := heq ▸ bubblePass_perm (k + 1) front
    have hl2len : l2.length = k + 1 := by
      have := hperm.length_eq
      simp at this
      omega
    have hl2mem : ∀ x ∈ l2, x ∈ front := fun x hx =>
      hperm.mem_iff.mp (by simp [hx])
    have hmnmem : mn ∈ front := hperm.mem_iff.mp (by simp)
    have hsorted' : List.Sorted DistGE (mn :: tail) := by
      refine List.Pairwise.cons ?_ hsorted
      intro y hy
      exact hdom mn hmnmem y hy
    have hdom' : ∀ x ∈ l2, ∀ y ∈ mn :: tail, y.distance ≤ x.distance := by
      intro x hx y hy
      rcases hy with _ | ⟨_, hy⟩
      · exact hmin x (hl2mem x hx)
      · exact hdom x (hl2mem x hx) y hy
    have hassoc : l2 ++ [mn] ++ tail = l2 ++ (mn :: tail) := by simp
    rw [hassoc]
    exact ih l2 (mn :: tail) hl2len hsorted' hdom'

/-- C9: SortSpritesByDistance returns a permutation of its input sorted by
non-increasing (descending) distance, farthest first; in particular any
permutation of three records with distances 5, 1, 3 comes out with
distances in the order 5, 3, 1. -/
theorem claim_C9 :
    (∀ l : List SpriteRenderInfo,
      (SpriteRenderer.SortSpritesByDistance l).Perm l ∧
      List.Sorted DistGE (SpriteRenderer.SortSpritesByDistance l)) ∧
    (∀ (a b c : SpriteRenderInfo) (l : List SpriteRenderInfo),
      a.distance = 5 → b.distance = 1 → c.distance = 3 → l.Perm [a, b, c] →
      (SpriteRenderer.SortSpritesByDistance l).map SpriteRenderInfo.distance =
        [5, 3, 1]) := by
  have main : ∀ l : List SpriteRenderInfo,
      (SpriteRenderer.SortSpritesByDistance l).Perm l ∧
      List.Sorted DistGE (SpriteRenderer.SortSpritesByDistance l) := by
    intro l
    refine ⟨bubbleOuter_perm (l.length - 1) l, ?_⟩
    match l with
    | [] => simp [SpriteRenderer.SortSpritesByDistance, bubbleOuter]
    | a :: t =>
      have h := bubbleOuter_sorted_aux ((a :: t).length - 1) (a :: t) []
        (by simp) (by simp) (by simp)
      simpa [SpriteRenderer.SortSpritesByDistance] using h
  refine ⟨main, ?_⟩
  intro a b c l ha hb hc hperm
  obtain ⟨hp, hs⟩ := main l
  have hmap : ((SpriteRenderer.SortSpritesByDistance l).map
      SpriteRenderInfo.distance).Perm [5, 1, 3] := by
    have := (hp.trans hperm).map SpriteRenderInfo.distance
    simpa [ha, hb, hc] using this
  have hmapsorted : ((SpriteRenderer.SortSpritesByDistance l).map
      SpriteRenderInfo.distance).Sorted (fun x y : ℚ => y ≤ x) := by
    exact List.Pairwise.map _ (fun a b h => h) hs
  haveI : IsAntisymm ℚ (fun x y : ℚ => y ≤ x) :=
    ⟨fun _ _ h1 h2 => le_antisymm h2 h1⟩
  have hfinal : ((SpriteRenderer.SortSpritesByDistance l).map
      SpriteRenderInfo.distance) = [5, 3, 1] := by
    refine List.eq_of_perm_of_sorted ?_ hmapsorted ?_
    · exact hmap.trans (by decide)
    · norm_num [List.Sorted]
  exact hfinal

/-- Witness for C9: a concrete record list with distances 5, 1, 3 comes out
of SortSpritesByDistance with distances in the order 5, 3, 1. -/
theorem claim_C9_witness :
    (SpriteRenderer.SortSpritesByDistance
      [⟨0, 5, 0, 0, 0⟩, ⟨1, 1, 0, 0, 0⟩, ⟨2, 3, 0, 0, 0⟩]).map
        SpriteRenderInfo.distance = [5, 3, 1] :=
  claim_C9.2 ⟨0, 5, 0, 0, 0⟩ ⟨1, 1, 0, 0, 0⟩ ⟨2, 3, 0, 0, 0⟩
    [⟨0, 5, 0, 0, 0⟩, ⟨1, 1, 0, 0, 0⟩, ⟨2, 3, 0, 0, 0⟩] rfl rfl rfl
    (List.Perm.refl _)

/-- Each DDA step moves exactly one axis by its step sign, accumulates that
axis's delta distance, and records the axis in `side`. -/
theorem ddaStep_fields (stepX stepY : ℤ) (dX dY : ℚ) (s : DdaState) :
    (s.sideDistX < s.sideDistY ∧
      (ddaStep stepX stepY dX dY s).mapX = s.mapX + stepX ∧
      (ddaStep stepX stepY dX dY s).mapY = s.mapY ∧
      (ddaStep stepX stepY dX dY s).sideDistX = s.sideDistX + dX ∧
      (ddaStep stepX stepY dX dY s).sideDistY = s.sideDistY ∧
      (ddaStep stepX stepY dX dY s).side = 0) ∨
    (¬ s.sideDistX < s.sideDistY ∧
      (ddaStep stepX stepY dX dY s).mapX = s.mapX ∧
      (ddaStep stepX stepY dX dY s).mapY = s.mapY + stepY ∧
      (ddaStep stepX stepY dX dY s).sideDistX = s.sideDistX ∧
      (ddaStep stepX stepY dX dY s).sideDistY = s.sideDistY + dY ∧
      (ddaStep stepX stepY dX dY s).side = 1) := by
  by_cases hlt : s.sideDistX < s.sideDistY
  · left
    refine ⟨hlt, ?_, ?_, ?_, ?_, ?_⟩ <;> simp [ddaStep, hlt]
  · right
    refine ⟨hlt, ?_, ?_, ?_, ?_, ?_⟩ <;> simp [ddaStep, hlt]

/-- The bounds encoded by IsValid, unpacked. -/
theorem isValid_iff (m : GridMap) (x y : ℤ) :
    m.IsValid x y = true ↔ 0 ≤ x ∧ x < m.width ∧ 0 ≤ y ∧ y < m.height := by
  simp [GridMap.IsValid, and_assoc]

/-- A DDA step into a valid cell strictly decreases the termination
measure. -/
theorem ddaBound_decrease (m : GridMap) (stepX stepY : ℤ) (dX dY : ℚ)
    (hsx : stepX = 1 ∨ stepX = -1) (hsy : stepY = 1 ∨ stepY = -1) (s : DdaState)
    (hvalid : m.IsValid (ddaStep stepX stepY dX dY s).mapX
      (ddaStep stepX stepY dX dY s).mapY = true) :
    ddaBound m stepX stepY (ddaStep stepX stepY dX dY s) <
      ddaBound m stepX stepY s := by
  rw [isValid_iff] at hvalid
  obtain ⟨hx0, hxw, hy0, hyh⟩ := hvalid
  unfold ddaBound
  rcases ddaStep_fields stepX stepY dX dY s with
      ⟨_, hmx, hmy, _, _, _⟩ | ⟨_, hmx, hmy, _, _, _⟩ <;>
    simp only [hmx, hmy] at hx0 hxw hy0 hyh ⊢ <;>
    rcases hsx with rfl | rfl <;> rcases hsy with rfl | rfl <;>
    norm_num <;> omega

/-- The termination measure of any valid cell is at most width plus
height. -/
theorem ddaBound_le (m : GridMap) (stepX stepY : ℤ) (s : DdaState)
    (hvalid : m.IsValid s.mapX s.mapY = true) :
    ddaBound m stepX stepY s ≤ m.width.toNat + m.height.toNat := by
  rw [isValid_iff] at hvalid
  obtain ⟨hx0, hxw, hy0, hyh⟩ := hvalid
  unfold ddaBound
  split_ifs <;> omega

/-- The DDA loop returns a verdict whenever the fuel strictly exceeds the
termination measure of the start state. -/
theorem ddaLoop_ne_none (m : GridMap) (stepX stepY : ℤ) (dX dY : ℚ)
    (hsx : stepX = 1 ∨ stepX = -1) (hsy : stepY = 1 ∨ stepY = -1) :
    ∀ (fuel : ℕ) (s : DdaState), ddaBound m stepX stepY s < fuel →
      ddaLoop m stepX stepY dX dY fuel s ≠ none := by
  intro fuel
  induction fuel with
  | zero => intro s h; omega
  | succ n ih =>
    intro s hb
    rw [ddaLoop]
    by_cases hv : m.IsValid (ddaStep stepX stepY dX dY s).mapX
        (ddaStep stepX stepY dX dY s).mapY = false
    · simp [hv]
    · rw [if_neg hv]
      by_cases hsol : m.IsSolid (ddaStep stepX stepY dX dY s).mapX
          (ddaStep stepX stepY dX dY s).mapY
      · simp [hsol]
      · rw [if_neg hsol]
        have hvalid : m.IsValid (ddaStep stepX stepY dX dY s).mapX
            (ddaStep stepX stepY dX dY s).mapY = true := by
          cases h : m.IsValid (ddaStep stepX stepY dX dY s).mapX
              (ddaStep stepX stepY dX dY s).mapY
          · exact absurd h hv
          · rfl
        exact ih _ (lt_of_lt_of_le
          (ddaBound_decrease m stepX stepY dX dY hsx hsy s hvalid)
          (Nat.lt_succ_iff.mp hb))

/-- With the fuel CastRay supplies, the DDA loop always returns a verdict:
the first step either leaves the map at once or reaches a valid cell, whose
termination measure the remaining fuel strictly exceeds. -/
theorem ddaLoop_fuel_ne_none (m : GridMap) (stepX stepY : ℤ) (dX dY : ℚ)
    (hsx : stepX = 1 ∨ stepX = -1) (hsy : stepY = 1 ∨ stepY = -1)
    (s : DdaState) :
    ddaLoop m stepX stepY dX dY (m.width.toNat + m.height.toNat + 2) s ≠ none := by
  show ddaLoop m stepX stepY dX dY ((m.width.toNat + m.height.toNat + 1) + 1) s ≠ none
  rw [ddaLoop]
  by_cases hv : m.IsValid (ddaStep stepX stepY dX dY s).mapX
      (ddaStep stepX stepY dX dY s).mapY = false
  · simp [hv]
  · rw [if_neg hv]
    by_cases hsol : m.IsSolid (ddaStep stepX stepY dX dY s).mapX
        (ddaStep stepX stepY dX dY s).mapY
    · simp [hsol]
    · rw [if_neg hsol]
      apply ddaLoop_ne_none m stepX stepY dX dY hsx hsy
      have hvalid : m.IsValid (ddaStep stepX stepY dX dY s).mapX
          (ddaStep stepX stepY dX dY s).mapY = true := by
        cases h : m.IsValid (ddaStep stepX stepY dX dY s).mapX
            (ddaStep stepX stepY dX dY s).mapY
        · exact absurd h hv
        · rfl
      exact lt_of_le_of_lt (ddaBound_le m stepX stepY _ hvalid) (by omega)

/-- The step signs produced by ddaSetup are always plus or minus one. -/
theorem ddaSetup_steps (origin direction : Vec2 ℚ) :
    ((ddaSetup origin direction).1 = 1 ∨ (ddaSetup origin direction).1 = -1) ∧
    ((ddaSetup origin direction).2.1 = 1 ∨ (ddaSetup origin direction).2.1 = -1) := by
  constructor
  · by_cases h : direction.x < 0 <;> simp [ddaSetup, h]
  · by_cases h : direction.y < 0 <;> simp [ddaSetup, h]

/-- The DDA run of CastRay always returns a verdict (the loop terminates on
every input). -/
theorem ddaRun_ne_none (m : GridMap) (origin direction : Vec2 ℚ) :
    ddaRun m origin direction ≠ none := by
  unfold ddaRun ddaFuel
  exact ddaLoop_fuel_ne_none m _ _ _ _ (ddaSetup_steps origin direction).1
    (ddaSetup_steps origin direction).2 _

/-- Any verdict of the DDA loop lies at least one signed step from the
start state: the signed cell displacement, measured along the step
directions, counts the iterations performed. -/
theorem ddaLoop_progress (m : GridMap) (stepX stepY : ℤ) (dX dY : ℚ)
    (hsx : stepX = 1 ∨ stepX = -1) (hsy : stepY = 1 ∨ stepY = -1) :
    ∀ (fuel : ℕ) (s : DdaState) (b : Bool) (s2 : DdaState),
      ddaLoop m stepX stepY dX dY fuel s = some (b, s2) →
      1 ≤ stepX * (s2.mapX - s.mapX) + stepY * (s2.mapY - s.mapY) := by
  intro fuel
  induction fuel with
  | zero => intro s b s2 h; simp [ddaLoop] at h
  | succ n ih =>
    intro s b s2 h
    rw [ddaLoop] at h
    have hsqx : stepX * stepX = 1 := by rcases hsx with rfl | rfl <;> norm_num
    have hsqy : stepY * stepY = 1 := by rcases hsy with rfl | rfl <;> norm_num
    have hstep : stepX * ((ddaStep stepX stepY dX dY s).mapX - s.mapX) +
        stepY * ((ddaStep stepX stepY dX dY s).mapY - s.mapY) = 1 := by
      rcases ddaStep_fields stepX stepY dX dY s with
          ⟨_, hmx, hmy, _, _, _⟩ | ⟨_, hmx, hmy, _, _, _⟩ <;> rw [hmx, hmy]
      · linear_combination hsqx
      · linear_combination hsqy
    by_cases hv : m.IsValid (ddaStep stepX stepY dX dY s).mapX
        (ddaStep stepX stepY dX dY s).mapY = false
    · rw [if_pos hv] at h
      have h1 := Option.some.inj h
      have hs2 : (ddaStep stepX stepY dX dY s) = s2 := congrArg Prod.snd h1
      rw [← hs2]
      exact le_of_eq hstep.symm
    · rw [if_neg hv] at h
      by_cases hsol : m.IsSolid (ddaStep stepX stepY dX dY s).mapX
          (ddaStep stepX stepY dX dY s).mapY = true
      · rw [if_pos hsol] at h
        have h1 := Option.some.inj h
        have hs2 : (ddaStep stepX stepY dX dY s) = s2 := congrArg Prod.snd h1
        rw [← hs2]
        exact le_of_eq hstep.symm
      · rw [if_neg hsol] at h
        have hrec := ih (ddaStep stepX stepY dX dY s) b s2 h
        have hsplit : stepX * (s2.mapX - s.mapX) + stepY * (s2.mapY - s.mapY) =
            (stepX * (s2.mapX - (ddaStep stepX stepY dX dY s).mapX) +
             stepY * (s2.mapY - (ddaStep stepX stepY dX dY s).mapY)) +
            (stepX * ((ddaStep stepX stepY dX dY s).mapX - s.mapX) +
             stepY * ((ddaStep stepX stepY dX dY s).mapY - s.mapY)) := by
          ring
        rw [hsplit]
        linarith [hrec, hstep]

/-- A hit verdict of the DDA loop lands in a valid cell. -/
theorem ddaLoop_hit_valid (m : GridMap) (stepX stepY : ℤ) (dX dY : ℚ) :
    ∀ (fuel : ℕ) (s : DdaState) (s2 : DdaState),
      ddaLoop m stepX stepY dX dY fuel s = some (true, s2) →
      m.IsValid s2.mapX s2.mapY = true := by
  intro fuel
  induction fuel with
  | zero => intro s s2 h; simp [ddaLoop] at h
  | succ n ih =>
    intro s s2 h
    rw [ddaLoop] at h
    by_cases hv : m.IsValid (ddaStep stepX stepY dX dY s).mapX
        (ddaStep stepX stepY dX dY s).mapY = false
    · rw [if_pos hv] at h
      have h1 := Option.some.inj h
      have hb : false = true := congrArg Prod.fst h1
      cases hb
    · rw [if_neg hv] at h
      by_cases hsol : m.IsSolid (ddaStep stepX stepY dX dY s).mapX
          (ddaStep stepX stepY dX dY s).mapY = true
      · rw [if_pos hsol] at h
        have h1 := Option.some.inj h
        have hs2 : (ddaStep stepX stepY dX dY s) = s2 := congrArg Prod.snd h1
        rw [← hs2]
        cases hvv : m.IsValid (ddaStep stepX stepY dX dY s).mapX
            (ddaStep stepX stepY dX dY s).mapY
        · exact absurd hvv hv
        · rfl
      · rw [if_neg hsol] at h
        exact ih (ddaStep stepX stepY dX dY s) s2 h

/-- The start state produced by ddaSetup sits in the cell of the floored
origin. -/
theorem ddaSetup_state (origin direction : Vec2 ℚ) :
    (ddaSetup origin direction).2.2.mapX = ⌊origin.x⌋ ∧
    (ddaSetup origin direction).2.2.mapY = ⌊origin.y⌋ := by
  constructor <;> simp [ddaSetup]

/-- CastRay on an accepted hit verdict: the record carries hit = true, the
perpendicular distance, and the hit cell of the loop's final state. -/
theorem castRay_accept (origin direction : Vec2 ℚ) (m : GridMap)
    (maxDistance : ℚ) (s : DdaState)
    (h : ddaRun m origin direction = some (true, s))
    (hle : ¬ maxDistance < perpWallDist direction s) :
    (Raycaster.CastRay origin direction m maxDistance).hit = true ∧
    (Raycaster.CastRay origin direction m maxDistance).distance =
      perpWallDist direction s ∧
    (Raycaster.CastRay origin direction m maxDistance).mapX = s.mapX ∧
    (Raycaster.CastRay origin direction m maxDistance).mapY = s.mapY := by
  unfold Raycaster.CastRay
  rw [h]
  simp only [if_neg hle]
  exact ⟨trivial, trivial, trivial, trivial⟩

/-- CastRay on a hit verdict rejected by the distance cap returns the
default miss record. -/
theorem castRay_reject (origin direction : Vec2 ℚ) (m : GridMap)
    (maxDistance : ℚ) (s : DdaState)
    (h : ddaRun m origin direction = some (true, s))
    (hgt : maxDistance < perpWallDist direction s) :
    Raycaster.CastRay origin direction m maxDistance = RaycastHit.init := by
  unfold Raycaster.CastRay
  rw [h]
  simp only [if_pos hgt]

/-- CastRay on an out-of-bounds verdict returns the default miss record. -/
theorem castRay_miss (origin direction : Vec2 ℚ) (m : GridMap)
    (maxDistance : ℚ) (s : DdaState)
    (h : ddaRun m origin direction = some (false, s)) :
    Raycaster.CastRay origin direction m maxDistance = RaycastHit.init := by
  unfold Raycaster.CastRay
  rw [h]

/-- C1: whenever CastRay reports hit = true its distance field equals the
DDA's accumulated side distance on the last-stepped axis minus that axis's
delta distance (the perpendicular distance); and whenever that
perpendicular distance exceeds maxDistance, CastRay reports hit = false (a
miss, not an error). -/
theorem claim_C1 (origin direction : Vec2 ℚ) (m : GridMap) (maxDistance : ℚ)
    (s : DdaState) (h : ddaRun m origin direction = some (true, s)) :
    ((Raycaster.CastRay origin direction m maxDistance).hit = true →
      (Raycaster.CastRay origin direction m maxDistance).distance =
        (if s.side = 0 then s.sideDistX - deltaDist direction.x
         else s.sideDistY - deltaDist direction.y)) ∧
    (maxDistance < (if s.side = 0 then s.sideDistX - deltaDist direction.x
                    else s.sideDistY - deltaDist direction.y) →
      (Raycaster.CastRay origin direction m maxDistance).hit = false) := by
  have hpwd : perpWallDist direction s =
      (if s.side = 0 then s.sideDistX - deltaDist direction.x
       else s.sideDistY - deltaDist direction.y) := rfl
  constructor
  · intro hhit
    by_cases hgt : maxDistance < perpWallDist direction s
    · rw [castRay_reject origin direction m maxDistance s h hgt] at hhit
      cases hhit
    · rw [← hpwd]
      exact (castRay_accept origin direction m maxDistance s h hgt).2.1
  · intro hgt
    rw [← hpwd] at hgt
    rw [castRay_reject origin direction m maxDistance s h hgt]
    rfl

/-- The DDA run of the east-cast ray from (1/2, 1/2) in the corridor map:
it hits cell (2,0) with side 0, accumulated side distance 5/2 on X and the
initial half-cell sentinel distance on Y. -/
theorem mCorridor_run : ddaRun mCorridor ⟨1/2, 1/2⟩ ⟨1, 0⟩ =
    some (true, ⟨2, 0, 5/2, 500000000000000000000000000000, 0⟩) := by
  norm_num [ddaRun, ddaSetup, ddaFuel, ddaLoop, ddaStep, deltaDist, mCorridor,
    GridMap.IsValid, GridMap.IsSolid, GridMap.GetDoorAt, List.find?, Tile.init]

/-- Witness for C1 on the corridor map: the east-cast ray from (1/2, 1/2)
hits cell (2,0); the loop's final state has side 0 with accumulated side
distance 5/2 and deltaDistX 1, so the reported distance is 5/2 - 1 = 3/2;
and with maxDistance 1 the same hit is rejected as a miss. -/
theorem claim_C1_witness :
    (Raycaster.CastRay ⟨1/2, 1/2⟩ ⟨1, 0⟩ mCorridor 100).hit = true ∧
    (Raycaster.CastRay ⟨1/2, 1/2⟩ ⟨1, 0⟩ mCorridor 100).distance = 3/2 ∧
    (Raycaster.CastRay ⟨1/2, 1/2⟩ ⟨1, 0⟩ mCorridor 1).hit = false := by
  have hrun := mCorridor_run
  have hc1 := claim_C1 ⟨1/2, 1/2⟩ ⟨1, 0⟩ mCorridor 100
    ⟨2, 0, 5/2, 500000000000000000000000000000, 0⟩ hrun
  have hc1' := claim_C1 ⟨1/2, 1/2⟩ ⟨1, 0⟩ mCorridor 1
    ⟨2, 0, 5/2, 500000000000000000000000000000, 0⟩ hrun
  have hpwd : (if (0:ℤ) = 0 then (5/2 : ℚ) - deltaDist (Vec2.mk (1:ℚ) 0).x
      else (500000000000000000000000000000 : ℚ) - deltaDist (Vec2.mk (1:ℚ) 0).y) =
      3/2 := by
    norm_num [deltaDist]
  have hhit : (Raycaster.CastRay ⟨1/2, 1/2⟩ ⟨1, 0⟩ mCorridor 100).hit = true := by
    have := castRay_accept ⟨1/2, 1/2⟩ ⟨1, 0⟩ mCorridor 100
      ⟨2, 0, 5/2, 500000000000000000000000000000, 0⟩ hrun
      (by rw [show perpWallDist ⟨1, 0⟩ ⟨2, 0, 5/2, 500000000000000000000000000000, 0⟩ =
            (3/2 : ℚ) from by norm_num [perpWallDist, deltaDist]]; norm_num)
    exact this.1
  refine ⟨hhit, ?_, ?_⟩
  · rw [hc1.1 hhit]
    exact hpwd
  · exact hc1'.2 (by rw [hpwd]; norm_num)

/-- C10: CastRay never reports a hit in the grid cell containing the ray
origin — the DDA steps to a neighboring cell before its first solidity
test, so for every map, direction and maxDistance the hit cell differs
from the floored origin cell; whereas RaycastInteraction tests the origin
cell first and, when that cell is valid and solid, reports a hit there at
distance 0. -/
theorem claim_C10 :
    (∀ (origin direction : Vec2 ℚ) (m : GridMap) (maxDistance : ℚ),
      (Raycaster.CastRay origin direction m maxDistance).hit = true →
      ¬((Raycaster.CastRay origin direction m maxDistance).mapX = ⌊origin.x⌋ ∧
        (Raycaster.CastRay origin direction m maxDistance).mapY = ⌊origin.y⌋)) ∧
    (∀ (m : GridMap) (origin dir : Vec2 ℚ) (maxDistance : ℚ),
      0 < maxDistance → m.IsValid ⌊origin.x⌋ ⌊origin.y⌋ = true →
      m.IsSolid ⌊origin.x⌋ ⌊origin.y⌋ = true →
      (Collision.RaycastInteraction m origin dir maxDistance).hit = true ∧
      (Collision.RaycastInteraction m origin dir maxDistance).distance = 0 ∧
      (Collision.RaycastInteraction m origin dir maxDistance).tileX = ⌊origin.x⌋ ∧
      (Collision.RaycastInteraction m origin dir maxDistance).tileY = ⌊origin.y⌋) := by
  constructor
  · intro origin direction m maxDistance hhit hcell
    cases hrun : ddaRun m origin direction with
    | none => exact ddaRun_ne_none m origin direction hrun
    | some p =>
      rcases p with ⟨b, s⟩
      cases b
      · rw [castRay_miss origin direction m maxDistance s hrun] at hhit
        cases hhit
      · by_cases hgt : maxDistance < perpWallDist direction s
        · rw [castRay_reject origin direction m maxDistance s hrun hgt] at hhit
          cases hhit
        · obtain ⟨_, _, hmx, hmy⟩ :=
            castRay_accept origin direction m maxDistance s hrun hgt
          obtain ⟨hcx, hcy⟩ := hcell
          rw [hmx] at hcx
          rw [hmy] at hcy
          have hrun' : ddaLoop m (ddaSetup origin direction).1
              (ddaSetup origin direction).2.1 (deltaDist direction.x)
              (deltaDist direction.y) (ddaFuel m)
              (ddaSetup origin direction).2.2 = some (true, s) := hrun
          have hprog := ddaLoop_progress m (ddaSetup origin direction).1
            (ddaSetup origin direction).2.1 (deltaDist direction.x)
            (deltaDist direction.y) (ddaSetup_steps origin direction).1
            (ddaSetup_steps origin direction).2 (ddaFuel m)
            (ddaSetup origin direction).2.2 true s hrun'
          rw [(ddaSetup_state origin direction).1,
              (ddaSetup_state origin direction).2, hcx, hcy] at hprog
          simp at hprog
  · intro m origin dir maxDistance hmd hv hsol
    unfold Collision.RaycastInteraction
    rw [Collision.raycastLoop]
    rw [if_pos hmd]
    have hv' : ¬ m.IsValid ⌊origin.x⌋ ⌊origin.y⌋ = false := by simp [hv]
    rw [if_neg hv', if_pos hsol]
    exact ⟨rfl, rfl, rfl, rfl⟩

/-- Witness for C10: the corridor ray from (1/2, 1/2) hits cell (2,0), not
the origin cell (0,0); and the interaction raycast started inside the
solid boundary cell (0,0) of the room map reports a hit there at distance
0. -/
theorem claim_C10_witness :
    ¬((Raycaster.CastRay ⟨1/2, 1/2⟩ ⟨1, 0⟩ mCorridor 100).mapX = ⌊(1/2 : ℚ)⌋ ∧
      (Raycaster.CastRay ⟨1/2, 1/2⟩ ⟨1, 0⟩ mCorridor 100).mapY = ⌊(1/2 : ℚ)⌋) ∧
    (Collision.RaycastInteraction mRoom ⟨1/2, 1/2⟩ ⟨1, 0⟩ 5).hit = true ∧
    (Collision.RaycastInteraction mRoom ⟨1/2, 1/2⟩ ⟨1, 0⟩ 5).distance = 0 := by
  constructor
  · have hhit : (Raycaster.CastRay ⟨1/2, 1/2⟩ ⟨1, 0⟩ mCorridor 100).hit = true := by
      have := castRay_accept ⟨1/2, 1/2⟩ ⟨1, 0⟩ mCorridor 100
        ⟨2, 0, 5/2, 500000000000000000000000000000, 0⟩ mCorridor_run
        (by norm_num [perpWallDist, deltaDist])
      exact this.1
    exact claim_C10.1 ⟨1/2, 1/2⟩ ⟨1, 0⟩ mCorridor 100 hhit
  · have h := claim_C10.2 mRoom ⟨1/2, 1/2⟩ ⟨1, 0⟩ 5 (by norm_num)
      (by norm_num [GridMap.IsValid, mRoom])
      (by norm_num [GridMap.IsSolid, GridMap.IsValid, GridMap.GetDoorAt,
        mRoom, List.find?, Tile.init])
    exact ⟨h.1, h.2.1⟩

/-- The per-axis delta distance is never negative. -/
theorem deltaDist_nonneg (c : ℚ) : 0 ≤ deltaDist c := by
  unfold deltaDist
  split_ifs
  · positivity
  · positivity

/-- The initial state built by ddaSetup satisfies the side-distance
invariant. -/
theorem ddaSetup_sideInv (origin direction : Vec2 ℚ) :
    SideInv origin (ddaSetup origin direction).1 (ddaSetup origin direction).2.1
      (deltaDist direction.x) (deltaDist direction.y)
      (ddaSetup origin direction).2.2 := by
  unfold SideInv ddaSetup
  by_cases hx : direction.x < 0 <;> by_cases hy : direction.y < 0 <;>
    simp [hx, hy]

/-- The initial side distances built by ddaSetup are nonnegative. -/
theorem ddaSetup_nonneg (origin direction : Vec2 ℚ) :
    0 ≤ (ddaSetup origin direction).2.2.sideDistX ∧
    0 ≤ (ddaSetup origin direction).2.2.sideDistY := by
  constructor
  · by_cases hx : direction.x < 0 <;>
      simp only [ddaSetup, hx, if_true, if_false, reduceIte]
    · exact mul_nonneg (by linarith [Int.floor_le origin.x]) (deltaDist_nonneg _)
    · exact mul_nonneg (by linarith [Int.lt_floor_add_one origin.x])
        (deltaDist_nonneg _)
  · by_cases hy : direction.y < 0 <;>
      simp only [ddaSetup, hy, if_true, if_false, reduceIte]
    · exact mul_nonneg (by linarith [Int.floor_le origin.y]) (deltaDist_nonneg _)
    · exact mul_nonneg (by linarith [Int.lt_floor_add_one origin.y])
        (deltaDist_nonneg _)

/-- One DDA step preserves the side-distance invariant. -/
theorem sideInv_step (origin : Vec2 ℚ) (stepX stepY : ℤ) (dX dY : ℚ)
    (hsx : stepX = 1 ∨ stepX = -1) (hsy : stepY = 1 ∨ stepY = -1)
    (s : DdaState) (h : SideInv origin stepX stepY dX dY s) :
    SideInv origin stepX stepY dX dY (ddaStep stepX stepY dX dY s) := by
  obtain ⟨h1, h2⟩ := h
  rcases ddaStep_fields stepX stepY dX dY s with
      ⟨_, hmx, hmy, hdx, hdy, _⟩ | ⟨_, hmx, hmy, hdx, hdy, _⟩
  · constructor
    · rw [hdx, hmx]
      rcases hsx with rfl | rfl <;> norm_num at h1 ⊢ <;> push_cast at h1 ⊢ <;>
        linear_combination h1
    · rw [hdy, hmy]
      exact h2
  · constructor
    · rw [hdx, hmx]
      exact h1
    · rw [hdy, hmy]
      rcases hsy with rfl | rfl <;> norm_num at h2 ⊢ <;> push_cast at h2 ⊢ <;>
        linear_combination h2

/-- The DDA loop carries the side-distance invariant to its verdict
state. -/
theorem ddaLoop_sideInv (m : GridMap) (origin : Vec2 ℚ) (stepX stepY : ℤ)
    (dX dY : ℚ) (hsx : stepX = 1 ∨ stepX = -1) (hsy : stepY = 1 ∨ stepY = -1) :
    ∀ (fuel : ℕ) (s : DdaState) (b : Bool) (s2 : DdaState),
      SideInv origin stepX stepY dX dY s →
      ddaLoop m stepX stepY dX dY fuel s = some (b, s2) →
      SideInv origin stepX stepY dX dY s2 := by
  intro fuel
  induction fuel with
  | zero => intro s b s2 _ h; simp [ddaLoop] at h
  | succ n ih =>
    intro s b s2 hinv h
    rw [ddaLoop] at h
    have hinv1 := sideInv_step origin stepX stepY dX dY hsx hsy s hinv
    by_cases hv : m.IsValid (ddaStep stepX stepY dX dY s).mapX
        (ddaStep stepX stepY dX dY s).mapY = false
    · rw [if_pos hv] at h
      have hs2 : (ddaStep stepX stepY dX dY s) = s2 :=
        congrArg Prod.snd (Option.some.inj h)
      exact hs2 ▸ hinv1
    · rw [if_neg hv] at h
      by_cases hsol : m.IsSolid (ddaStep stepX stepY dX dY s).mapX
          (ddaStep stepX stepY dX dY s).mapY = true
      · rw [if_pos hsol] at h
        have hs2 : (ddaStep stepX stepY dX dY s) = s2 :=
          congrArg Prod.snd (Option.some.inj h)
        exact hs2 ▸ hinv1
      · rw [if_neg hsol] at h
        exact ih (ddaStep stepX stepY dX dY s) b s2 hinv1 h

/-- The DDA loop keeps both side distances nonnegative, and in the verdict
state the side distance of the last-stepped axis exceeds its delta by the
nonnegative pre-step value. -/
theorem ddaLoop_nonneg (m : GridMap) (stepX stepY : ℤ) (dX dY : ℚ)
    (hdX : 0 ≤ dX) (hdY : 0 ≤ dY) :
    ∀ (fuel : ℕ) (s : DdaState) (b : Bool) (s2 : DdaState),
      0 ≤ s.sideDistX → 0 ≤ s.sideDistY →
      ddaLoop m stepX stepY dX dY fuel s = some (b, s2) →
      (s2.side = 0 → 0 ≤ s2.sideDistX - dX) ∧
      (s2.side = 1 → 0 ≤ s2.sideDistY - dY) := by
  intro fuel
  induction fuel with
  | zero => intro s b s2 _ _ h; simp [ddaLoop] at h
  | succ n ih =>
    intro s b s2 hX hY h
    rw [ddaLoop] at h
    have hfacts : ((ddaStep stepX stepY dX dY s).side = 0 →
          0 ≤ (ddaStep stepX stepY dX dY s).sideDistX - dX) ∧
        ((ddaStep stepX stepY dX dY s).side = 1 →
          0 ≤ (ddaStep stepX stepY dX dY s).sideDistY - dY) ∧
        0 ≤ (ddaStep stepX stepY dX dY s).sideDistX ∧
        0 ≤ (ddaStep stepX stepY dX dY s).sideDistY := by
      rcases ddaStep_fields stepX stepY dX dY s with
          ⟨_, _, _, hdx, hdy, hside⟩ | ⟨_, _, _, hdx, hdy, hside⟩ <;>
        rw [hdx, hdy, hside] <;>
        refine ⟨?_, ?_, by linarith, by linarith⟩ <;> intro hh <;>
        first
          | linarith
          | cases hh
    by_cases hv : m.IsValid (ddaStep stepX stepY dX dY s).mapX
        (ddaStep stepX stepY dX dY s).mapY = false
    · rw [if_pos hv] at h
      have hs2 : (ddaStep stepX stepY dX dY s) = s2 :=
        congrArg Prod.snd (Option.some.inj h)
      exact hs2 ▸ ⟨hfacts.1, hfacts.2.1⟩
    · rw [if_neg hv] at h
      by_cases hsol : m.IsSolid (ddaStep stepX stepY dX dY s).mapX
          (ddaStep stepX stepY dX dY s).mapY = true
      · rw [if_pos hsol] at h
        have hs2 : (ddaStep stepX stepY dX dY s) = s2 :=
          congrArg Prod.snd (Option.some.inj h)
        exact hs2 ▸ ⟨hfacts.1, hfacts.2.1⟩
      · rw [if_neg hsol] at h
        exact ih (ddaStep stepX stepY dX dY s) b s2 hfacts.2.2.1 hfacts.2.2.2 h

/-- In the verdict state of the DDA loop, the side flag is 0 or 1 and names
the axis whose pre-step side distance was the smaller: for side 0 the
pre-step X distance was strictly below the Y distance, for side 1 the
pre-step Y distance was at most the X distance. -/
theorem ddaLoop_lastcmp (m : GridMap) (stepX stepY : ℤ) (dX dY : ℚ) :
    ∀ (fuel : ℕ) (s : DdaState) (b : Bool) (s2 : DdaState),
      ddaLoop m stepX stepY dX dY fuel s = some (b, s2) →
      (s2.side = 0 ∨ s2.side = 1) ∧
      (s2.side = 0 → s2.sideDistX - dX < s2.sideDistY) ∧
      (s2.side = 1 → s2.sideDistY - dY ≤ s2.sideDistX) := by
  intro fuel
  induction fuel with
  | zero => intro s b s2 h; simp [ddaLoop] at h
  | succ n ih =>
    intro s b s2 h
    rw [ddaLoop] at h
    have hfacts : ((ddaStep stepX stepY dX dY s).side = 0 ∨
          (ddaStep stepX stepY dX dY s).side = 1) ∧
        ((ddaStep stepX stepY dX dY s).side = 0 →
          (ddaStep stepX stepY dX dY s).sideDistX - dX <
            (ddaStep stepX stepY dX dY s).sideDistY) ∧
        ((ddaStep stepX stepY dX dY s).side = 1 →
          (ddaStep stepX stepY dX dY s).sideDistY - dY ≤
            (ddaStep stepX stepY dX dY s).sideDistX) := by
      rcases ddaStep_fields stepX stepY dX dY s with
          ⟨hlt, _, _, hdx, hdy, hside⟩ | ⟨hlt, _, _, hdx, hdy, hside⟩ <;>
        rw [hdx, hdy, hside] <;>
        refine ⟨by norm_num, ?_, ?_⟩ <;> intro hh <;>
        first
          | linarith
          | cases hh
    by_cases hv : m.IsValid (ddaStep stepX stepY dX dY s).mapX
        (ddaStep stepX stepY dX dY s).mapY = false
    · rw [if_pos hv] at h
      have hs2 : (ddaStep stepX stepY dX dY s) = s2 :=
        congrArg Prod.snd (Option.some.inj h)
      exact hs2 ▸ hfacts
    · rw [if_neg hv] at h
      by_cases hsol : m.IsSolid (ddaStep stepX stepY dX dY s).mapX
          (ddaStep stepX stepY dX dY s).mapY = true
      · rw [if_pos hsol] at h
        have hs2 : (ddaStep stepX stepY dX dY s) = s2 :=
          congrArg Prod.snd (Option.some.inj h)
        exact hs2 ▸ hfacts
      · rw [if_neg hsol] at h
        exact ih (ddaStep stepX stepY dX dY s) b s2 h

/-- In a map whose boundary ring is solid, the DDA loop started in an
interior cell can only exit with a hit verdict: every step from an
interior cell lands in bounds, and a non-solid in-bounds cell is again
interior. -/
theorem ddaLoop_room_hit (m : GridMap) (stepX stepY : ℤ) (dX dY : ℚ)
    (hsx : stepX = 1 ∨ stepX = -1) (hsy : stepY = 1 ∨ stepY = -1)
    (hring : ∀ x y, m.IsValid x y = true →
        (x = 0 ∨ x = m.width - 1 ∨ y = 0 ∨ y = m.height - 1) →
        m.IsSolid x y = true) :
    ∀ (fuel : ℕ) (s : DdaState) (b : Bool) (s2 : DdaState),
      0 < s.mapX → s.mapX < m.width - 1 → 0 < s.mapY → s.mapY < m.height - 1 →
      ddaLoop m stepX stepY dX dY fuel s = some (b, s2) → b = true := by
  intro fuel
  induction fuel with
  | zero => intro s b s2 _ _ _ _ h; simp [ddaLoop] at h
  | succ n ih =>
    intro s b s2 hx1 hx2 hy1 hy2 h
    rw [ddaLoop] at h
    have hcell : ((ddaStep stepX stepY dX dY s).mapX = s.mapX + stepX ∧
          (ddaStep stepX stepY dX dY s).mapY = s.mapY) ∨
        ((ddaStep stepX stepY dX dY s).mapX = s.mapX ∧
          (ddaStep stepX stepY dX dY s).mapY = s.mapY + stepY) := by
      rcases ddaStep_fields stepX stepY dX dY s with
          ⟨_, hmx, hmy, _, _, _⟩ | ⟨_, hmx, hmy, _, _, _⟩
      · exact Or.inl ⟨hmx, hmy⟩
      · exact Or.inr ⟨hmx, hmy⟩
    have hvalid : m.IsValid (ddaStep stepX stepY dX dY s).mapX
        (ddaStep stepX stepY dX dY s).mapY = true := by
      rw [isValid_iff]
      rcases hcell with ⟨hmx, hmy⟩ | ⟨hmx, hmy⟩ <;> rw [hmx, hmy] <;>
        rcases hsx with rfl | rfl <;> rcases hsy with rfl | rfl <;> omega
    have hv' : ¬ (m.IsValid (ddaStep stepX stepY dX dY s).mapX
        (ddaStep stepX stepY dX dY s).mapY = false) := by
      rw [hvalid]; exact fun hc => Bool.noConfusion hc
    rw [if_neg hv'] at h
    by_cases hsol : m.IsSolid (ddaStep stepX stepY dX dY s).mapX
        (ddaStep stepX stepY dX dY s).mapY = true
    · rw [if_pos hsol] at h
      exact (congrArg Prod.fst (Option.some.inj h)).symm
    · rw [if_neg hsol] at h
      have hbounds := (isValid_iff m _ _).mp hvalid
      have hint : (0 < (ddaStep stepX stepY dX dY s).mapX ∧
          (ddaStep stepX stepY dX dY s).mapX < m.width - 1 ∧
          0 < (ddaStep stepX stepY dX dY s).mapY ∧
          (ddaStep stepX stepY dX dY s).mapY < m.height - 1) ∨
          ((ddaStep stepX stepY dX dY s).mapX = 0 ∨
           (ddaStep stepX stepY dX dY s).mapX = m.width - 1 ∨
           (ddaStep stepX stepY dX dY s).mapY = 0 ∨
           (ddaStep stepX stepY dX dY s).mapY = m.height - 1) := by
        omega
      rcases hint with ⟨hi1, hi2, hi3, hi4⟩ | hd
      · exact ih (ddaStep stepX stepY dX dY s) b s2 hi1 hi2 hi3 hi4 h
      · exact absurd (hring _ _ hvalid hd) hsol

/-- Bounds on the perpendicular distance of a DDA verdict state: it is
nonnegative, at most width times deltaDistX, and at most height times
deltaDistY.  The own-axis bound comes from the side-distance invariant and
the cell bounds; the cross-axis bound comes from the loop having stepped
the axis with the smaller accumulated distance. -/
theorem perp_bounds (m : GridMap) (origin direction : Vec2 ℚ)
    (stepX stepY : ℤ) (s2 : DdaState)
    (hsx : stepX = 1 ∨ stepX = -1) (hsy : stepY = 1 ∨ stepY = -1)
    (hinv : SideInv origin stepX stepY (deltaDist direction.x)
      (deltaDist direction.y) s2)
    (hside : s2.side = 0 ∨ s2.side = 1)
    (hcmp0 : s2.side = 0 → s2.sideDistX - deltaDist direction.x < s2.sideDistY)
    (hcmp1 : s2.side = 1 → s2.sideDistY - deltaDist direction.y ≤ s2.sideDistX)
    (hnn0 : s2.side = 0 → 0 ≤ s2.sideDistX - deltaDist direction.x)
    (hnn1 : s2.side = 1 → 0 ≤ s2.sideDistY - deltaDist direction.y)
    (hvalid : m.IsValid s2.mapX s2.mapY = true)
    (h1x : 1 ≤ origin.x) (h2x : origin.x < (m.width : ℚ) - 1)
    (h1y : 1 ≤ origin.y) (h2y : origin.y < (m.height : ℚ) - 1) :
    0 ≤ perpWallDist direction s2 ∧
    perpWallDist direction s2 ≤ (m.width : ℚ) * deltaDist direction.x ∧
    perpWallDist direction s2 ≤ (m.height : ℚ) * deltaDist direction.y := by
  obtain ⟨hb0, hb1, hb2, hb3⟩ := (isValid_iff m _ _).mp hvalid
  have hq0 : (0 : ℚ) ≤ (s2.mapX : ℚ) := by exact_mod_cast hb0
  have hq1 : (s2.mapX : ℚ) ≤ (m.width : ℚ) - 1 := by
    have h : s2.mapX ≤ m.width - 1 := by omega
    exact_mod_cast h
  have hq2 : (0 : ℚ) ≤ (s2.mapY : ℚ) := by exact_mod_cast hb2
  have hq3 : (s2.mapY : ℚ) ≤ (m.height : ℚ) - 1 := by
    have h : s2.mapY ≤ m.height - 1 := by omega
    exact_mod_cast h
  have hdX := deltaDist_nonneg direction.x
  have hdY := deltaDist_nonneg direction.y
  obtain ⟨hinvX, hinvY⟩ := hinv
  have hXbound : s2.sideDistX ≤ (m.width : ℚ) * deltaDist direction.x := by
    rcases hsx with h | h
    · rw [h] at hinvX
      rw [if_pos rfl] at hinvX
      rw [hinvX]
      apply mul_le_mul_of_nonneg_right _ hdX
      linarith
    · rw [h] at hinvX
      rw [if_neg (by decide : ¬ ((-1 : ℤ) = 1))] at hinvX
      rw [hinvX]
      apply mul_le_mul_of_nonneg_right _ hdX
      linarith
  have hYbound : s2.sideDistY ≤ (m.height : ℚ) * deltaDist direction.y := by
    rcases hsy with h | h
    · rw [h] at hinvY
      rw [if_pos rfl] at hinvY
      rw [hinvY]
      apply mul_le_mul_of_nonneg_right _ hdY
      linarith
    · rw [h] at hinvY
      rw [if_neg (by decide : ¬ ((-1 : ℤ) = 1))] at hinvY
      rw [hinvY]
      apply mul_le_mul_of_nonneg_right _ hdY
      linarith
  rcases hside with h0 | h1
  · have hperp : perpWallDist direction s2 =
        s2.sideDistX - deltaDist direction.x := by
      rw [perpWallDist, if_pos h0]
    refine ⟨hperp ▸ hnn0 h0, ?_, ?_⟩
    · rw [hperp]
      linarith [hXbound]
    · rw [hperp]
      linarith [hcmp0 h0, hYbound]
  · have hperp : perpWallDist direction s2 =
        s2.sideDistY - deltaDist direction.y := by
      rw [perpWallDist, if_neg (by rw [h1]; decide)]
    refine ⟨hperp ▸ hnn1 h1, ?_, ?_⟩
    · rw [hperp]
      linarith [hcmp1 h1, hXbound]
    · rw [hperp]
      linarith [hYbound]

/-- C3 amended: for every map whose boundary ring is solid and whose
interior is empty, every origin inside an interior cell, and every
unit-length direction, the CastRay DDA loop terminates (the run always
returns a verdict), and with maxDistance at least the room's diagonal
(stated as diagonal-squared at most maxDistance squared) CastRay returns
hit = true at a nonnegative distance whose square is at most
width² + height² — i.e. at most the diagonal.  The restriction to
unit-length directions is forced: CastRay's distance is measured in units
of the direction vector's length, so a short non-unit direction scales the
reported distance past the cap (see the counterexample). -/
theorem claim_C3_amended (m : GridMap) (origin direction : Vec2 ℚ)
    (maxDistance : ℚ)
    (hring : ∀ x y, m.IsValid x y = true →
        (x = 0 ∨ x = m.width - 1 ∨ y = 0 ∨ y = m.height - 1) →
        m.IsSolid x y = true)
    (hox : 0 < ⌊origin.x⌋) (hox2 : ⌊origin.x⌋ < m.width - 1)
    (hoy : 0 < ⌊origin.y⌋) (hoy2 : ⌊origin.y⌋ < m.height - 1)
    (hunit : direction.x ^ 2 + direction.y ^ 2 = 1)
    (hmax : 0 ≤ maxDistance)
    (hdiag : (m.width : ℚ) ^ 2 + (m.height : ℚ) ^ 2 ≤ maxDistance ^ 2) :
    ddaRun m origin direction ≠ none ∧
    (Raycaster.CastRay origin direction m maxDistance).hit = true ∧
    0 ≤ (Raycaster.CastRay origin direction m maxDistance).distance ∧
    (Raycaster.CastRay origin direction m maxDistance).distance ^ 2 ≤
      (m.width : ℚ) ^ 2 + (m.height : ℚ) ^ 2 := by
  have hsx := (ddaSetup_steps origin direction).1
  have hsy := (ddaSetup_steps origin direction).2
  refine ⟨ddaRun_ne_none m origin direction, ?_⟩
  cases hrun : ddaRun m origin direction with
  | none => exact absurd hrun (ddaRun_ne_none m origin direction)
  | some p =>
    rcases p with ⟨b, s2⟩
    have hrun' : ddaLoop m (ddaSetup origin direction).1
        (ddaSetup origin direction).2.1 (deltaDist direction.x)
        (deltaDist direction.y) (ddaFuel m)
        (ddaSetup origin direction).2.2 = some (b, s2) := hrun
    have hb : b = true := by
      refine ddaLoop_room_hit m _ _ _ _ hsx hsy hring (ddaFuel m)
        (ddaSetup origin direction).2.2 b s2 ?_ ?_ ?_ ?_ hrun'
      · rw [(ddaSetup_state origin direction).1]; exact hox
      · rw [(ddaSetup_state origin direction).1]; exact hox2
      · rw [(ddaSetup_state origin direction).2]; exact hoy
      · rw [(ddaSetup_state origin direction).2]; exact hoy2
    subst hb
    have hinv := ddaLoop_sideInv m origin _ _ _ _ hsx hsy (ddaFuel m)
      (ddaSetup origin direction).2.2 true s2 (ddaSetup_sideInv origin direction)
      hrun'
    have hnn := ddaLoop_nonneg m _ _ _ _ (deltaDist_nonneg direction.x)
      (deltaDist_nonneg direction.y) (ddaFuel m)
      (ddaSetup origin direction).2.2 true s2
      (ddaSetup_nonneg origin direction).1 (ddaSetup_nonneg origin direction).2
      hrun'
    have hcmp := ddaLoop_lastcmp m _ _ _ _ (ddaFuel m)
      (ddaSetup origin direction).2.2 true s2 hrun'
    have hvalid := ddaLoop_hit_valid m _ _ _ _ (ddaFuel m)
      (ddaSetup origin direction).2.2 s2 hrun'
    have h1x : (1 : ℚ) ≤ origin.x := by
      have h1 : (1 : ℤ) ≤ ⌊origin.x⌋ := hox
      have h2 : (1 : ℚ) ≤ (⌊origin.x⌋ : ℚ) := by exact_mod_cast h1
      linarith [Int.floor_le origin.x]
    have h2x : origin.x < (m.width : ℚ) - 1 := by
      have h1 : ⌊origin.x⌋ ≤ m.width - 2 := by omega
      have h2 : (⌊origin.x⌋ : ℚ) ≤ (m.width : ℚ) - 2 := by exact_mod_cast h1
      linarith [Int.lt_floor_add_one origin.x]
    have h1y : (1 : ℚ) ≤ origin.y := by
      have h1 : (1 : ℤ) ≤ ⌊origin.y⌋ := hoy
      have h2 : (1 : ℚ) ≤ (⌊origin.y⌋ : ℚ) := by exact_mod_cast h1
      linarith [Int.floor_le origin.y]
    have h2y : origin.y < (m.height : ℚ) - 1 := by
      have h1 : ⌊origin.y⌋ ≤ m.height - 2 := by omega
      have h2 : (⌊origin.y⌋ : ℚ) ≤ (m.height : ℚ) - 2 := by exact_mod_cast h1
      linarith [Int.lt_floor_add_one origin.y]
    obtain ⟨hpnn, hpX, hpY⟩ := perp_bounds m origin direction _ _ s2 hsx hsy
      hinv hcmp.1 hcmp.2.1 hcmp.2.2 hnn.1 hnn.2 hvalid h1x h2x h1y h2y
    have hw0 : (3 : ℚ) ≤ (m.width : ℚ) := by
      have h : (3 : ℤ) ≤ m.width := by omega
      exact_mod_cast h
    have hh0 : (3 : ℚ) ≤ (m.height : ℚ) := by
      have h : (3 : ℤ) ≤ m.height := by omega
      exact_mod_cast h
    have hsq : (perpWallDist direction s2) ^ 2 ≤
        (m.width : ℚ) ^ 2 + (m.height : ℚ) ^ 2 := by
      by_cases hdx0 : direction.x = 0
      · have hdy2 : direction.y ^ 2 = 1 := by
          rw [hdx0] at hunit
          linarith [hunit]
        have hdy0 : direction.y ≠ 0 := by
          intro h0
          rw [h0] at hdy2
          norm_num at hdy2
        have habs : |direction.y| = 1 := by
          have h2 : |direction.y| ^ 2 = 1 := by rw [sq_abs]; exact hdy2
          nlinarith [abs_nonneg direction.y]
        have hdY1 : deltaDist direction.y = 1 := by
          unfold deltaDist
          rw [if_neg hdy0, abs_div, abs_one, habs, div_one]
        rw [hdY1, mul_one] at hpY
        nlinarith [hpnn, hpY, hw0, hh0]
      · by_cases hdy0 : direction.y = 0
        · have hdx2 : direction.x ^ 2 = 1 := by
            rw [hdy0] at hunit
            linarith [hunit]
          have habs : |direction.x| = 1 := by
            have h2 : |direction.x| ^ 2 = 1 := by rw [sq_abs]; exact hdx2
            nlinarith [abs_nonneg direction.x]
          have hdX1 : deltaDist direction.x = 1 := by
            unfold deltaDist
            rw [if_neg hdx0, abs_div, abs_one, habs, div_one]
          rw [hdX1, mul_one] at hpX
          nlinarith [hpnn, hpX, hw0, hh0]
        · have hax : 0 < |direction.x| := abs_pos.mpr hdx0
          have hay : 0 < |direction.y| := abs_pos.mpr hdy0
          have hdXv : deltaDist direction.x = 1 / |direction.x| := by
            unfold deltaDist
            rw [if_neg hdx0, abs_div, abs_one]
          have hdYv : deltaDist direction.y = 1 / |direction.y| := by
            unfold deltaDist
            rw [if_neg hdy0, abs_div, abs_one]
          have hmulX : perpWallDist direction s2 * |direction.x| ≤ (m.width : ℚ) := by
            rw [hdXv, mul_one_div] at hpX
            exact (le_div_iff hax).mp hpX
          have hmulY : perpWallDist direction s2 * |direction.y| ≤ (m.height : ℚ) := by
            rw [hdYv, mul_one_div] at hpY
            exact (le_div_iff hay).mp hpY
          have hsqX : (perpWallDist direction s2) ^ 2 * direction.x ^ 2 ≤
              (m.width : ℚ) ^ 2 := by
            have h1 := pow_le_pow_left
              (mul_nonneg hpnn (abs_nonneg direction.x)) hmulX 2
            calc (perpWallDist direction s2) ^ 2 * direction.x ^ 2
                = (perpWallDist direction s2 * |direction.x|) ^ 2 := by
                  rw [mul_pow, sq_abs]
              _ ≤ (m.width : ℚ) ^ 2 := h1
          have hsqY : (perpWallDist direction s2) ^ 2 * direction.y ^ 2 ≤
              (m.height : ℚ) ^ 2 := by
            have h1 := pow_le_pow_left
              (mul_nonneg hpnn (abs_nonneg direction.y)) hmulY 2
            calc (perpWallDist direction s2) ^ 2 * direction.y ^ 2
                = (perpWallDist direction s2 * |direction.y|) ^ 2 := by
                  rw [mul_pow, sq_abs]
              _ ≤ (m.height : ℚ) ^ 2 := h1
          have hexp : (perpWallDist direction s2) ^ 2 =
              (perpWallDist direction s2) ^ 2 * direction.x ^ 2 +
              (perpWallDist direction s2) ^ 2 * direction.y ^ 2 := by
            have : (perpWallDist direction s2) ^ 2 * (direction.x ^ 2 +
                direction.y ^ 2) = (perpWallDist direction s2) ^ 2 := by
              rw [hunit, mul_one]
            linarith [this, mul_add ((perpWallDist direction s2) ^ 2)
              (direction.x ^ 2) (direction.y ^ 2)]
          linarith [hsqX, hsqY, hexp]
    have hle : ¬ maxDistance < perpWallDist direction s2 := by
      intro hcon
      have h1 : maxDistance * maxDistance <
          perpWallDist direction s2 * perpWallDist direction s2 :=
        mul_self_lt_mul_self hmax hcon
      have h2 : maxDistance ^ 2 < perpWallDist direction s2 ^ 2 := by
        rw [pow_two, pow_two]
        exact h1
      linarith [hsq, hdiag]
    obtain ⟨hhit, hdist, _, _⟩ :=
      castRay_accept origin direction m maxDistance s2 hrun hle
    refine ⟨hhit, ?_, ?_⟩
    · rw [hdist]
      exact hpnn
    · rw [hdist]
      exact hsq

/-- The boundary ring of the room map is solid. -/
theorem mRoom_ring : ∀ x y, mRoom.IsValid x y = true →
    (x = 0 ∨ x = mRoom.width - 1 ∨ y = 0 ∨ y = mRoom.height - 1) →
    mRoom.IsSolid x y = true := by
  intro x y hv hd
  simp only [mRoom] at hd
  norm_num at hd
  have hv' : ¬ (mRoom.IsValid x y = false) := by
    rw [hv]
    exact fun h => Bool.noConfusion h
  unfold GridMap.IsSolid
  rw [if_neg hv']
  have hdoor : mRoom.GetDoorAt x y = none := by
    simp [GridMap.GetDoorAt, mRoom, List.find?]
  rw [hdoor]
  show (mRoom.tiles x y).solid = true
  simp only [mRoom, decide_eq_true_eq]
  omega

/-- The interior of the room map is empty. -/
theorem mRoom_interior : ∀ x y, 0 < x → x < mRoom.width - 1 → 0 < y →
    y < mRoom.height - 1 → mRoom.IsSolid x y = false := by
  intro x y h1 h2 h3 h4
  simp only [mRoom] at h2 h4
  norm_num at h2 h4
  have hv : mRoom.IsValid x y = true := by
    rw [isValid_iff]
    simp only [mRoom]
    omega
  have hv' : ¬ (mRoom.IsValid x y = false) := by
    rw [hv]
    exact fun h => Bool.noConfusion h
  unfold GridMap.IsSolid
  rw [if_neg hv']
  have hdoor : mRoom.GetDoorAt x y = none := by
    simp [GridMap.GetDoorAt, mRoom, List.find?]
  rw [hdoor]
  show (mRoom.tiles x y).solid = false
  simp only [mRoom, decide_eq_false_iff_not]
  omega

/-- Counterexample to C3 as stated: on the fully enclosed empty 4-by-4 room
all of the claim's conditions hold at a concrete input — solid boundary
ring, empty interior, origin (3/2, 3/2) strictly inside, and maxDistance 6
at least the room's diagonal sqrt(32) — yet with the non-unit direction
(1/100, 0) CastRay returns hit = false: the DDA's side distances are
measured in units of the direction vector, so the perpendicular distance
comes out as 150, exceeding maxDistance, and the hit is discarded. -/
theorem claim_C3_counterexample :
    (∀ x y, mRoom.IsValid x y = true →
        (x = 0 ∨ x = mRoom.width - 1 ∨ y = 0 ∨ y = mRoom.height - 1) →
        mRoom.IsSolid x y = true) ∧
    (∀ x y, 0 < x → x < mRoom.width - 1 → 0 < y → y < mRoom.height - 1 →
        mRoom.IsSolid x y = false) ∧
    (0 < ⌊(3/2 : ℚ)⌋ ∧ ⌊(3/2 : ℚ)⌋ < mRoom.width - 1 ∧
     ⌊(3/2 : ℚ)⌋ < mRoom.height - 1) ∧
    ((mRoom.width : ℚ) ^ 2 + (mRoom.height : ℚ) ^ 2 ≤ 6 ^ 2) ∧
    (Raycaster.CastRay ⟨3/2, 3/2⟩ ⟨1/100, 0⟩ mRoom 6).hit = false := by
  refine ⟨mRoom_ring, mRoom_interior, ?_, ?_, ?_⟩
  · norm_num [mRoom]
  · norm_num [mRoom]
  · have hrun : ddaRun mRoom ⟨3/2, 3/2⟩ ⟨1/100, 0⟩ =
        some (true, ⟨3, 1, 250, 500000000000000000000000000000, 0⟩) := by
      norm_num [ddaRun, ddaSetup, ddaFuel, ddaLoop, ddaStep, deltaDist, mRoom,
        GridMap.IsValid, GridMap.IsSolid, GridMap.GetDoorAt, List.find?,
        Tile.init]
    have hgt : (6 : ℚ) < perpWallDist ⟨1/100, 0⟩
        ⟨3, 1, 250, 500000000000000000000000000000, 0⟩ := by
      norm_num [perpWallDist, deltaDist]
    rw [castRay_reject ⟨3/2, 3/2⟩ ⟨1/100, 0⟩ mRoom 6
      ⟨3, 1, 250, 500000000000000000000000000000, 0⟩ hrun hgt]
    rfl

/-- Witness for C3 amended: in the 4-by-4 room, the unit-direction ray east
from (3/2, 3/2) terminates, hits the boundary at distance 3/2, and its
squared distance 9/4 is within the squared diagonal 32. -/
theorem claim_C3_amended_witness :
    ddaRun mRoom ⟨3/2, 3/2⟩ ⟨1, 0⟩ ≠ none ∧
    (Raycaster.CastRay ⟨3/2, 3/2⟩ ⟨1, 0⟩ mRoom 6).hit = true ∧
    0 ≤ (Raycaster.CastRay ⟨3/2, 3/2⟩ ⟨1, 0⟩ mRoom 6).distance ∧
    (Raycaster.CastRay ⟨3/2, 3/2⟩ ⟨1, 0⟩ mRoom 6).distance ^ 2 ≤
      (mRoom.width : ℚ) ^ 2 + (mRoom.height : ℚ) ^ 2 := by
  exact claim_C3_amended mRoom ⟨3/2, 3/2⟩ ⟨1, 0⟩ 6 mRoom_ring
    (by norm_num) (by norm_num [mRoom]) (by norm_num) (by norm_num [mRoom])
    (by norm_num) (by norm_num) (by norm_num [mRoom])

/-- C4 amended: for every sprite position passing the distance and
half-space culls, ProjectToScreen computes the screen X as
`W/2 - (sideAngle/0.66)·(W/2)` where sideAngle is the arcsine of the dot
product of the normalized to-sprite direction with the camera's right
vector `GetRightVector = (-sin θ, cos θ)` — the code's perpendicular
`(cameraDir.y, -cameraDir.x)` is the negation of the right vector, and the
FOV divisor is the hard-coded constant 0.66, not the camera's configured
field of view. -/
theorem claim_C4_amended (worldPos : Vec2 ℝ) (worldHeight : ℝ)
    (cameraPos : Vec2 ℝ) (cameraRot : ℝ) (screenWidth screenHeight : ℤ)
    (r : ProjectResult)
    (h : SpriteRenderer.ProjectToScreen worldPos worldHeight cameraPos cameraRot
      screenWidth screenHeight = some r) :
    r.screenX = projectScreenXAmended worldPos cameraPos cameraRot screenWidth := by
  unfold SpriteRenderer.ProjectToScreen at h
  simp only at h
  split at h
  · cases h
  · split at h
    · cases h
    · have hr := Option.some.inj h
      rw [← hr]
      unfold projectScreenXAmended RaycastCamera.GetRightVector
        RaycastCamera.GetDirection
      simp only
      rw [show -Real.sin cameraRot *
            ((worldPos.x - cameraPos.x) /
              Real.sqrt ((worldPos.x - cameraPos.x) * (worldPos.x - cameraPos.x) +
                (worldPos.y - cameraPos.y) * (worldPos.y - cameraPos.y))) +
          Real.cos cameraRot *
            ((worldPos.y - cameraPos.y) /
              Real.sqrt ((worldPos.x - cameraPos.x) * (worldPos.x - cameraPos.x) +
                (worldPos.y - cameraPos.y) * (worldPos.y - cameraPos.y))) =
          -(Real.sin cameraRot *
            ((worldPos.x - cameraPos.x) /
              Real.sqrt ((worldPos.x - cameraPos.x) * (worldPos.x - cameraPos.x) +
                (worldPos.y - cameraPos.y) * (worldPos.y - cameraPos.y))) +
            -Real.cos cameraRot *
            ((worldPos.y - cameraPos.y) /
              Real.sqrt ((worldPos.x - cameraPos.x) * (worldPos.x - cameraPos.x) +
                (worldPos.y - cameraPos.y) * (worldPos.y - cameraPos.y))))
        from by ring]
      rw [Real.arcsin_neg]
      ring

/-- The square root of two is at least one. -/
theorem one_le_sqrt_two : (1 : ℝ) ≤ Real.sqrt 2 := by
  rw [show (1 : ℝ) = Real.sqrt 1 from Real.sqrt_one.symm]
  exact Real.sqrt_le_sqrt (by norm_num)

/-- The reciprocal of the square root of two equals half the square root of
two. -/
theorem one_div_sqrt_two : (1 : ℝ) / Real.sqrt 2 = Real.sqrt 2 / 2 := by
  rw [div_eq_div_iff (by positivity) (by norm_num), one_mul,
    Real.mul_self_sqrt (by norm_num)]

/-- The arcsine of half the square root of two is pi over four. -/
theorem arcsin_sqrt_two_div_two : Real.arcsin (Real.sqrt 2 / 2) = Real.pi / 4 := by
  rw [← Real.sin_pi_div_four]
  exact Real.arcsin_sin (by linarith [Real.pi_pos]) (by linarith [Real.pi_pos])

/-- The arccosine of half the square root of two is pi over four. -/
theorem arccos_sqrt_two_div_two : Real.arccos (Real.sqrt 2 / 2) = Real.pi / 4 := by
  rw [← Real.cos_pi_div_four]
  exact Real.arccos_cos (by linarith [Real.pi_pos]) (by linarith [Real.pi_pos])

/-- Concrete evaluation of the sprite projection: the sprite at (1,1) seen
from a camera at the origin with rotation 0 on an 800-wide screen is
accepted, and its screen X is `400 - (arcsin(sqrt 2 / 2) / 0.66) · 400` —
left of center, because the code's side angle is the negation of the
right-vector side angle. -/
theorem projectToScreen_screenX_eval :
    (SpriteRenderer.ProjectToScreen ⟨1, 1⟩ 0 ⟨0, 0⟩ 0 800 600).map
      ProjectResult.screenX =
    some ((800 : ℝ)/2 -
      (Real.arcsin (Real.sqrt 2 / 2) / (66/100)) * ((800 : ℝ)/2)) := by
  unfold SpriteRenderer.ProjectToScreen
  simp only
  split
  · next hlt =>
      exfalso
      norm_num at hlt
      linarith [one_le_sqrt_two, hlt]
  · next hge =>
      split
      · next hang =>
          exfalso
          simp only [RaycastCamera.GetDirection] at hang
          rw [Real.cos_zero, Real.sin_zero] at hang
          norm_num at hang
          rw [show ((Real.sqrt 2)⁻¹ : ℝ) = Real.sqrt 2 / 2 from by
              rw [inv_eq_one_div]; exact one_div_sqrt_two] at hang
          rw [arccos_sqrt_two_div_two] at hang
          linarith [Real.pi_lt_315, hang]
      · next hang =>
          rw [Option.map_some']
          congr 1
          simp only [RaycastCamera.GetDirection]
          rw [Real.cos_zero, Real.sin_zero]
          norm_num
          rw [show ((Real.sqrt 2)⁻¹ : ℝ) = Real.sqrt 2 / 2 from by
              rw [inv_eq_one_div]; exact one_div_sqrt_two]
          ring

/-- Concrete evaluation of the claimed (spec) screen X formula at the same
input, with the camera's configured default field of view 1.0472: it comes
out right of center. -/
theorem projectScreenXSpec_eval :
    projectScreenXSpec ⟨1, 1⟩ ⟨0, 0⟩ 0 (10472/10000) 800 =
      (800 : ℝ)/2 +
        (Real.arcsin (Real.sqrt 2 / 2) / (10472/10000)) * ((800 : ℝ)/2) := by
  unfold projectScreenXSpec RaycastCamera.GetRightVector
  simp only
  rw [Real.sin_zero, Real.cos_zero]
  norm_num
  rw [show ((Real.sqrt 2)⁻¹ : ℝ) = Real.sqrt 2 / 2 from by
      rw [inv_eq_one_div]; exact one_div_sqrt_two]

/-- Counterexample to C4 as stated: the sprite at (1,1) viewed from the
origin at rotation 0 is accepted by ProjectToScreen, but the screen X the
code computes differs from the claimed formula
`W/2 + (arcsin(dot(spriteDir, GetRightVector))/FOV)·(W/2)` with the
camera's configured FOV 1.0472: the code lands left of center (it negates
the right vector) while the claimed formula lands right of center. -/
theorem claim_C4_counterexample :
    (SpriteRenderer.ProjectToScreen ⟨1, 1⟩ 0 ⟨0, 0⟩ 0 800 600).isSome = true ∧
    (SpriteRenderer.ProjectToScreen ⟨1, 1⟩ 0 ⟨0, 0⟩ 0 800 600).map
      ProjectResult.screenX ≠
      some (projectScreenXSpec ⟨1, 1⟩ ⟨0, 0⟩ 0 (10472/10000) 800) := by
  constructor
  · cases hopt : SpriteRenderer.ProjectToScreen ⟨1, 1⟩ 0 ⟨0, 0⟩ 0 800 600 with
    | none =>
        have h := projectToScreen_screenX_eval
        rw [hopt] at h
        simp at h
    | some r => rfl
  · rw [projectToScreen_screenX_eval, projectScreenXSpec_eval]
    intro hcon
    have h1 := Option.some.inj hcon
    rw [arcsin_sqrt_two_div_two] at h1
    have hpipos := Real.pi_pos
    field_simp at h1
    linarith

/-- Witness for C4 amended, at the concrete accepted input: the code's
screen X equals the amended formula (negated right vector, hard-coded
0.66 divisor). -/
theorem claim_C4_amended_witness :
    (SpriteRenderer.ProjectToScreen ⟨1, 1⟩ 0 ⟨0, 0⟩ 0 800 600).map
      ProjectResult.screenX =
      some (projectScreenXAmended ⟨1, 1⟩ ⟨0, 0⟩ 0 800) := by
  cases hopt : SpriteRenderer.ProjectToScreen ⟨1, 1⟩ 0 ⟨0, 0⟩ 0 800 600 with
  | none =>
      have h := projectToScreen_screenX_eval
      rw [hopt] at h
      simp at h
  | some r =>
      rw [Option.map_some']
      exact congrArg some (claim_C4_amended ⟨1, 1⟩ 0 ⟨0, 0⟩ 0 800 600 r hopt)

end Arena
